import Mathlib

/-!
# Rich-text link checker: retrieval, extraction, chunked validation

A shallow embedding of `src/client/core.js` and `src/server/index.js`.

* JavaScript strings are `String`s; the text-scanning helpers work on the
  character list `String.data`.
* Arrays are `List`s; `push` appends at the end.
* An `async` function that can throw returns an `Outcome`; the `while` loops
  of the two paginators take a fuel argument that bounds the number of
  iterations (`Outcome.outOfFuel` stands for a loop that is still running).
* Network collaborators (`fetch`, `axios`, the stream reader) are explicit
  arguments; every request that is issued is appended to a log.
-/

set_option autoImplicit false

namespace RichTextLinkChecker

/-! ## Text helpers (`String.prototype.split`, `String.prototype.match`) -/

/-- Models `s.split(sep)` for a one-character separator, on character lists:
the pieces between the occurrences of `sep`; there is always at least one. -/
def splitChars (sep : Char) : List Char → List (List Char)
  | [] => [[]]
  | c :: cs =>
    if c = sep then [] :: splitChars sep cs
    else
      match splitChars sep cs with
      | [] => [[c]]
      | p :: ps => (c :: p) :: ps

/-- Models `s.split(sep)` for a one-character separator string. -/
def split (s : String) (sep : Char) : List String :=
  (splitChars sep s.data).map String.mk

/-- The double quote, the separator that `findURLsInRichText` splits a match on. -/
def dquote : Char := Char.ofNat 34

/-- The line feed, the separator of `response.split("\n")`. -/
def newline : Char := Char.ofNat 10

/-- Items of a regular expression, as far as the pattern of `extractURLs` needs
them: literals, an optional literal, and quantified character classes. Capture
groups are left out: `match` with the `g` flag returns whole matches only. -/
inductive Atom where
  /-- A literal character. -/
  | lit (c : Char)
  /-- Models `c?`: an optional literal (greedy). -/
  | opt (c : Char)
  /-- Models `[...]+`: one or more characters of a class, greedy. -/
  | plus (cls : Char → Bool)
  /-- Models `[...]*`: zero or more characters of a class, greedy. -/
  | star (cls : Char → Bool)
  /-- Models `[...]+?`: one or more characters of a class, lazy. -/
  | lazyPlus (cls : Char → Bool)

/-- Greedy repetition of a class followed by the continuation `k`: the longest
run is tried first, then shorter ones (backtracking order). The result is the
input left over after the whole match. -/
def matchStar (cls : Char → Bool) (k : List Char → Option (List Char)) :
    List Char → Option (List Char)
  | [] => k []
  | c :: cs =>
    if cls c then
      match matchStar cls k cs with
      | some r => some r
      | none => k (c :: cs)
    else k (c :: cs)

/-- Lazy repetition of a class followed by the continuation `k`: the shortest
run is tried first, then longer ones. -/
def matchLazyStar (cls : Char → Bool) (k : List Char → Option (List Char)) :
    List Char → Option (List Char)
  | [] => k []
  | c :: cs =>
    match k (c :: cs) with
    | some r => some r
    | none => if cls c then matchLazyStar cls k cs else none

/-- Backtracking match of a sequence of atoms at the start of the input; the
result is the input left over after the first match in priority order. -/
def matchSeq : List Atom → List Char → Option (List Char)
  | [], s => some s
  | Atom.lit c :: rest, s =>
    match s with
    | d :: ds => if d = c then matchSeq rest ds else none
    | [] => none
  | Atom.opt c :: rest, s =>
    match s with
    | d :: ds =>
      if d = c then
        match matchSeq rest ds with
        | some r => some r
        | none => matchSeq rest s
      else matchSeq rest s
    | [] => matchSeq rest []
  | Atom.plus cls :: rest, s =>
    match s with
    | d :: ds => if cls d then matchStar cls (matchSeq rest) ds else none
    | [] => none
  | Atom.star cls :: rest, s => matchStar cls (matchSeq rest) s
  | Atom.lazyPlus cls :: rest, s =>
    match s with
    | d :: ds => if cls d then matchLazyStar cls (matchSeq rest) ds else none
    | [] => none

/-- Models `text.match(regex)` with the `g` flag, as the list of matched substrings:
the leftmost match is taken, the scan resumes right after it (one character
further after an empty match). `skip` counts the characters of the current
match that are still to be stepped over. -/
def matchAll (pattern : List Atom) : List Char → Nat → List (List Char)
  | [], 0 =>
    match matchSeq pattern [] with
    | some _ => [[]]
    | none => []
  | [], _ + 1 => []
  | _ :: cs, skip + 1 => matchAll pattern cs skip
  | c :: cs, 0 =>
    match matchSeq pattern (c :: cs) with
    | some r =>
      let len := (c :: cs).length - r.length
      (c :: cs).take len :: matchAll pattern cs (len - 1)
    | none => matchAll pattern cs 0

/-- The class `[^>]`. -/
def notGt (c : Char) : Bool := !(c == '>')

/-- The class `.` (no `s` flag): anything but a line terminator. -/
def dot (c : Char) : Bool :=
  !(c == Char.ofNat 10 || c == Char.ofNat 13 || c == Char.ofNat 0x2028 || c == Char.ofNat 0x2029)

/-- The literal characters of a string, as atoms. -/
def lits (s : String) : List Atom := s.data.map Atom.lit

/-- The pattern `<a([^>]+)href="(https?:\/\/.+?)"[^>]*>(.+?)<\/a>`. -/
def regex : List Atom :=
  lits "<a" ++ [Atom.plus notGt] ++ lits "href=" ++ [Atom.lit dquote] ++
  lits "http" ++ [Atom.opt 's'] ++ lits "://" ++ [Atom.lazyPlus dot] ++
  [Atom.lit dquote] ++ [Atom.star notGt] ++ lits ">" ++ [Atom.lazyPlus dot] ++ lits "</a>"

/-- Models `extractURLs(text)`: `text.match(regex)`, which is `null` (`none`) when
nothing matches and the array of matched anchors otherwise. -/
def extractURLs (text : String) : Option (List String) :=
  match matchAll regex text.data 0 with
  | [] => none
  | m :: ms => some ((m :: ms).map String.mk)

/-! ## Content model and link extraction (`findURLsInRichText`) -/

/-- An element of a content item or of a content type: its `type` tag and, for
an item, its `value`. -/
structure Element where
  type : String
  value : String
  deriving DecidableEq, Repr

/-- The `system` object of an item or type. -/
structure SystemInfo where
  id : String
  name : String
  codename : String
  deriving DecidableEq, Repr

/-- A content item; `elements` is the list `Object.entries(item.elements)`. -/
structure ContentItem where
  system : SystemInfo
  elements : List (String × Element)
  deriving DecidableEq, Repr

/-- A content type; `elements` is the list `Object.entries(type.elements)`. -/
structure ContentType where
  system : SystemInfo
  elements : List (String × Element)
  deriving DecidableEq, Repr

/-- The record pushed for each matched anchor. `URL` is the second piece of the
match split on the double quote, which is `undefined` (`none`) when the split
has fewer than two pieces. -/
structure Link where
  URL : Option String
  Response : String
  ResponseTime : String
  deriving DecidableEq, Repr

/-- The record pushed for each content item with at least one link. -/
structure LinkGroup where
  Name : String
  URLs : List Link
  systemID : String
  deriving DecidableEq, Repr

/-- The body of `urlsFound.forEach`: push one link record, count it. -/
def pushLink (acc : List Link × Nat) (url : String) : List Link × Nat :=
  let extractedUrl := (split url dquote)[1]?
  (acc.1 ++ [{ URL := extractedUrl, Response := "", ResponseTime := "" }], acc.2 + 1)

/-- The body of `itemElements.forEach`. -/
def scanElement (acc : List Link × Nat) (thisElement : String × Element) : List Link × Nat :=
  if thisElement.2.type = "rich_text" then
    match extractURLs thisElement.2.value with
    | some urlsFound => urlsFound.foldl pushLink acc
    | none => acc
  else acc

/-- The body of `inputArray.forEach`; the state is `(result, numURLsFound)`. -/
def scanItem (acc : List LinkGroup × Nat) (item : ContentItem) : List LinkGroup × Nat :=
  let scanned := item.elements.foldl scanElement ([], acc.2)
  let urls := scanned.1
  if urls.length > 0 then
    (acc.1 ++ [{ Name := item.system.name, URLs := urls, systemID := item.system.id }], scanned.2)
  else (acc.1, scanned.2)

/-- Models `findURLsInRichText(inputArray)`, returning `[result, numURLsFound]`. -/
def findURLsInRichText (inputArray : List ContentItem) : List LinkGroup × Nat :=
  inputArray.foldl scanItem ([], 0)

/-! ## Chunked submission and the streamed response (`testLinks`) -/

/-- The constant `chunkSize` of `testLinks`. -/
def chunkSize : Nat := 50

/-- Models `Math.ceil(objects.length / chunkSize)`. The quotient of two array lengths
is far inside the range where the floating-point division and `Math.ceil`
agree with the exact rounded-up quotient. -/
def numberOfChunks {γ : Type} (objects : List γ) : Nat :=
  (objects.length + (chunkSize - 1)) / chunkSize

/-- Models `xs.slice(start, end)` for `0 ≤ start` and `0 ≤ end`. -/
def slice {γ : Type} (xs : List γ) (start stop : Nat) : List γ :=
  (xs.take stop).drop start

/-- The chunk built in iteration `index` of the loop of `testLinks`. -/
def chunkAt {γ : Type} (objects : List γ) (index : Nat) : List γ :=
  slice objects (index * chunkSize) ((index + 1) * chunkSize)

/-- The chunks built by the loop of `testLinks`, one for each index below
`numberOfChunks`, in order. -/
def builtChunks {γ : Type} (objects : List γ) : List (List γ) :=
  (List.range (numberOfChunks objects)).map (chunkAt objects)

/-- A byte of a `Uint8Array`. -/
abbrev Byte := Fin 256

/-- The replacement character U+FFFD. -/
def replacementChar : Char := Char.ofNat 0xFFFD

/-- The byte order mark U+FEFF. -/
def byteOrderMark : Char := Char.ofNat 0xFEFF

/-- State of the UTF-8 decoder of the Encoding Standard. -/
structure Utf8State where
  codePoint : Nat
  bytesSeen : Nat
  bytesNeeded : Nat
  lower : Nat
  upper : Nat
  deriving DecidableEq, Repr

/-- The initial decoder state. -/
def Utf8State.init : Utf8State :=
  { codePoint := 0, bytesSeen := 0, bytesNeeded := 0, lower := 0x80, upper := 0xBF }

/-- The decoder on a byte when no continuation byte is awaited. -/
def utf8Lead (b : Nat) : Utf8State × List Char :=
  if b ≤ 0x7F then (Utf8State.init, [Char.ofNat b])
  else if 0xC2 ≤ b ∧ b ≤ 0xDF then
    ({ Utf8State.init with bytesNeeded := 1, codePoint := b &&& 0x1F }, [])
  else if 0xE0 ≤ b ∧ b ≤ 0xEF then
    ({ codePoint := b &&& 0xF, bytesSeen := 0, bytesNeeded := 2,
       lower := if b = 0xE0 then 0xA0 else 0x80,
       upper := if b = 0xED then 0x9F else 0xBF }, [])
  else if 0xF0 ≤ b ∧ b ≤ 0xF4 then
    ({ codePoint := b &&& 0x7, bytesSeen := 0, bytesNeeded := 3,
       lower := if b = 0xF0 then 0x90 else 0x80,
       upper := if b = 0xF4 then 0x8F else 0xBF }, [])
  else (Utf8State.init, [replacementChar])

/-- One step of the UTF-8 decoder (error mode "replacement"): the new state
and the characters emitted. A byte that breaks a sequence is emitted as U+FFFD
for the broken sequence and then decoded again as a lead byte. -/
def utf8Step (st : Utf8State) (b : Nat) : Utf8State × List Char :=
  if st.bytesNeeded = 0 then utf8Lead b
  else if b < st.lower ∨ st.upper < b then
    ((utf8Lead b).1, replacementChar :: (utf8Lead b).2)
  else
    let codePoint := (st.codePoint <<< 6) ||| (b &&& 0x3F)
    if st.bytesSeen + 1 ≠ st.bytesNeeded then
      ({ codePoint := codePoint, bytesSeen := st.bytesSeen + 1,
         bytesNeeded := st.bytesNeeded, lower := 0x80, upper := 0xBF }, [])
    else (Utf8State.init, [Char.ofNat codePoint])

/-- Run the decoder to the end of the input; a sequence cut short by the end of
the input is emitted as U+FFFD. -/
def utf8Run : Utf8State → List Byte → List Char
  | st, [] => if st.bytesNeeded ≠ 0 then [replacementChar] else []
  | st, b :: bs => (utf8Step st b.val).2 ++ utf8Run (utf8Step st b.val).1 bs

/-- Models `new TextDecoder().decode(bytes)`: every call starts a fresh UTF-8 decoder
(no `stream` option is given), flushes it at the end of `bytes`, and drops a
leading byte order mark. -/
def decodeBytes (bytes : List Byte) : String :=
  match utf8Run Utf8State.init bytes with
  | [] => ""
  | c :: cs => if c = byteOrderMark then String.mk cs else String.mk (c :: cs)

/-- The `value` of a read result. -/
inductive ReadValue where
  | bytes (b : List Byte)
  | undefined
  | null
  deriving DecidableEq, Repr

/-- The result `{ value, done }` of `reader.read()`. -/
structure ReadResult where
  value : ReadValue
  done : Bool
  deriving DecidableEq, Repr

/-- Models `decoder.decode(value)` for a value that is not `null`; `decode(undefined)`
is the empty string. -/
def decode : ReadValue → String
  | ReadValue.bytes b => decodeBytes b
  | _ => ""

/-- What the rendering loop has done so far: the lines handed to `JSON.parse`
and the items handed to `settingTheTable`, both in order. -/
structure Rendered (ι : Type) where
  parsed : List String
  rendered : List ι

/-- The `for` loop over `lines[0 .. length - 2]`: parse and render each line.
`JSONparse` is `JSON.parse`; its error is the message of the exception thrown.
The second component is that message when a parse threw. -/
def renderLines {ι : Type} (JSONparse : String → Except String ι) :
    List String → Rendered ι → Rendered ι × Option String
  | [], r => (r, none)
  | line :: rest, r =>
    match JSONparse line with
    | Except.ok item =>
      renderLines JSONparse rest
        { parsed := r.parsed ++ [line], rendered := r.rendered ++ [item] }
    | Except.error message => ({ r with parsed := r.parsed ++ [line] }, some message)

/-- How the `while (!done)` loop ended. -/
inductive LoopEnd where
  /-- The flag `done` became true, or `value === null` broke the loop. -/
  | finished
  /-- A call of `JSON.parse` threw. -/
  | threw (message : String)
  /-- The reader has delivered all the given results and the loop awaits the next. -/
  | pending
  deriving DecidableEq, Repr

/-- The `while (!done)` loop of `testLinks` over the successive results of
`reader.read()`, from the buffer `response`. -/
def readLoop {ι : Type} (JSONparse : String → Except String ι) :
    List ReadResult → String → Rendered ι → LoopEnd × Rendered ι
  | [], _, r => (LoopEnd.pending, r)
  | ev :: evs, response, r =>
    match ev.value with
    | ReadValue.null => (LoopEnd.finished, r)
    | value =>
      let lines := split (response ++ decode value) newline
      match renderLines JSONparse lines.dropLast r with
      | (r1, some message) => (LoopEnd.threw message, r1)
      | (r1, none) =>
        if ev.done then (LoopEnd.finished, r1)
        else readLoop JSONparse evs (lines.getLastD "") r1

/-- What `fetch` gives for a chunk: a rejection with a message, or a response
with a status and a body stream (the successive read results). -/
inductive PingResult where
  | failed (message : String)
  | response (status : Nat) (reads : List ReadResult)
  deriving DecidableEq, Repr

/-- Models `res.ok`: the status is in the range 200 to 299. -/
def statusOk (status : Nat) : Bool := decide (200 ≤ status) && decide (status ≤ 299)

/-- A call of `displayNotification(message, notificationType)`. -/
structure Notification where
  message : String
  notificationType : String
  deriving DecidableEq, Repr

/-- The observable trace of `testLinks`: the chunks posted to `/ping`, the
notifications displayed, and what was parsed and rendered. -/
structure PingRun (γ ι : Type) where
  requests : List (List γ)
  notifications : List Notification
  output : Rendered ι

/-- How `testLinks` ended: it returned, or it awaits a read that never comes. -/
inductive RunEnd where
  | returned
  | pending
  deriving DecidableEq, Repr

/-- The `for` loop of `testLinks` over the remaining chunk indices, with the
`catch` block. `service index chunk` is what `fetch` gives for the request of
that chunk. -/
def testLinksLoop {γ ι : Type} (service : Nat → List γ → PingResult)
    (JSONparse : String → Except String ι) (objects : List γ) :
    List Nat → PingRun γ ι → RunEnd × PingRun γ ι
  | [], run => (RunEnd.returned, run)
  | index :: rest, run =>
    let chunk := chunkAt objects index
    let sent := run.requests ++ [chunk]
    match service index chunk with
    | PingResult.failed message =>
      (RunEnd.returned,
        { run with
          requests := sent
          notifications := run.notifications ++
            [⟨"Error occured communicating with server: " ++ message, "is-danger"⟩] })
    | PingResult.response status reads =>
      let notes :=
        if statusOk status then run.notifications
        else run.notifications ++
          [⟨"Unexpected error occured communicating with server. Status code: " ++
              toString status, "is-danger"⟩]
      match readLoop JSONparse reads "" run.output with
      | (LoopEnd.finished, out) =>
        testLinksLoop service JSONparse objects rest
          { requests := sent, notifications := notes, output := out }
      | (LoopEnd.threw message, out) =>
        (RunEnd.returned,
          { requests := sent
            notifications := notes ++
              [⟨"Error occured communicating with server: " ++ message, "is-danger"⟩]
            output := out })
      | (LoopEnd.pending, out) =>
        (RunEnd.pending, { requests := sent, notifications := notes, output := out })

/-- Models `testLinks(objects)`. -/
def testLinks {γ ι : Type} (service : Nat → List γ → PingResult)
    (JSONparse : String → Except String ι) (objects : List γ) : RunEnd × PingRun γ ι :=
  testLinksLoop service JSONparse objects (List.range (numberOfChunks objects))
    { requests := [], notifications := [], output := { parsed := [], rendered := [] } }

/-- The result events of a reader over a body that arrives as the given byte
chunks: one result per chunk, then `{ value: undefined, done: true }`. -/
def readsOf (chunks : List (List Byte)) : List ReadResult :=
  chunks.map (fun c => { value := ReadValue.bytes c, done := false }) ++
    [{ value := ReadValue.undefined, done := true }]

/-- UTF-8 encoding of a character (what `res.write` puts on the wire). -/
def utf8Encode (c : Char) : List Byte :=
  let n := c.toNat
  if n ≤ 0x7F then [Fin.ofNat n]
  else if n ≤ 0x7FF then [Fin.ofNat (0xC0 ||| (n >>> 6)), Fin.ofNat (0x80 ||| (n &&& 0x3F))]
  else if n ≤ 0xFFFF then
    [Fin.ofNat (0xE0 ||| (n >>> 12)), Fin.ofNat (0x80 ||| ((n >>> 6) &&& 0x3F)),
      Fin.ofNat (0x80 ||| (n &&& 0x3F))]
  else
    [Fin.ofNat (0xF0 ||| (n >>> 18)), Fin.ofNat (0x80 ||| ((n >>> 12) &&& 0x3F)),
      Fin.ofNat (0x80 ||| ((n >>> 6) &&& 0x3F)), Fin.ofNat (0x80 ||| (n &&& 0x3F))]

/-- UTF-8 encoding of a string. -/
def utf8Bytes (s : String) : List Byte := s.data.flatMap utf8Encode

/-! ## The content API (`callAPI`) and the two paginators -/

/-- The `pagination` object of a listing response. -/
structure Pagination where
  next_page : String
  deriving DecidableEq, Repr

/-- The envelope of the types listing. -/
structure TypesResponse where
  types : List ContentType
  pagination : Pagination
  deriving DecidableEq, Repr

/-- The envelope of the items listing. -/
structure ItemsResponse where
  items : List ContentItem
  pagination : Pagination
  deriving DecidableEq, Repr

/-- An entry of the languages listing. -/
structure LanguageInfo where
  system : SystemInfo
  deriving DecidableEq, Repr

/-- The envelope of the languages listing. -/
structure LanguagesResponse where
  languages : List LanguageInfo
  deriving DecidableEq, Repr

/-- What `fetch(endpoint, ...)` gives: a rejection with a message, or a response
with its status and the result of `res.json()` (the parsed envelope, or the
message of the rejection when the body is not JSON). -/
inductive FetchResult (α : Type) where
  | failed (message : String)
  | response (status : Nat) (json : Except String α)

/-- The result of an operation that can throw or run on: `threw` carries the
`message` of the `Error`, which is all an `Error` made with `new Error(message)`
holds. -/
inductive Outcome (α : Type) where
  | returned (value : α)
  | threw (message : String)
  | outOfFuel
  deriving DecidableEq, Repr

/-- Models `callAPI(endpoint, "GET")` over the given `fetch`: a response that is not
`ok` throws `API request failed: <status>`; a rejection of `fetch` is rethrown
with its message; a rejection of `res.json()` reaches the caller as it is. -/
def callAPI {α : Type} (fetch : String → FetchResult α) (endpoint : String) : Except String α :=
  match fetch endpoint with
  | FetchResult.failed message => Except.error message
  | FetchResult.response status json =>
    if !statusOk status then Except.error ("API request failed: " ++ toString status)
    else json

/-- A run of a paginator: its outcome and the endpoints it requested, in order. -/
structure PageRun (α : Type) where
  outcome : Outcome (List α)
  requests : List String

/-- A run of `getTypes`: as `PageRun`, with the final value of the variable
`endpoint` that the loop assigns (`none` while it is unassigned). -/
structure TypesRun where
  outcome : Outcome (List ContentType)
  requests : List String
  endpoint : Option String

/-- The `while (isNextPage)` loop of `getTypes` with its `catch` block. Every
iteration requests `${endpointURL}/types?limit=2000&skip=0`; the next-page URL
is stored in `endpoint`, which the request does not read. The name `endpoint`
is not declared in `getTypes`: as with `numURLsFound` and `result` in
`findURLsInRichText`, the assignment makes a global of a script that is not in
strict mode. -/
def getTypesLoop (fetch : String → FetchResult TypesResponse) (endpointURL : String) :
    Nat → List (List ContentType) → Option String → List String → TypesRun
  | 0, _, endpoint, log => { outcome := Outcome.outOfFuel, requests := log, endpoint := endpoint }
  | fuel + 1, retrievedTypes, endpoint, log =>
    let url := endpointURL ++ "/types?limit=2000&skip=0"
    match callAPI fetch url with
    | Except.error message =>
      { outcome := Outcome.threw
          ("Error occured retrieving your content types: \"" ++ message ++ "\"")
        requests := log ++ [url]
        endpoint := endpoint }
    | Except.ok response =>
      if response.pagination.next_page = "" then
        { outcome := Outcome.returned (retrievedTypes ++ [response.types]).flatten
          requests := log ++ [url]
          endpoint := endpoint }
      else
        getTypesLoop fetch endpointURL fuel (retrievedTypes ++ [response.types])
          (some response.pagination.next_page) (log ++ [url])

/-- Models `getTypes()`; `fuel` bounds the number of iterations of its loop. -/
def getTypes (fetch : String → FetchResult TypesResponse) (endpointURL : String)
    (fuel : Nat) : TypesRun :=
  getTypesLoop fetch endpointURL fuel [] none []

/-- Models `findRichTextTypes(types)`: filter by `Object.values(type.elements).some(...)`,
map to the codename, and `toString()` the array (its elements joined by commas). -/
def findRichTextTypes (types : List ContentType) : String :=
  let richTextTypes :=
    (types.filter (fun type =>
      (type.elements.map Prod.snd).any (fun element => element.type == "rich_text"))).map
      (fun type => type.system.codename)
  String.intercalate "," richTextTypes

/-- Models `setCallParameters(types, language)`. -/
def setCallParameters (endpointURL types language : String) : String :=
  let apiEndpoint := endpointURL ++ "/items?system.type[in]=" ++ types
  let apiEndpoint :=
    if language ≠ "" then apiEndpoint ++ "&system.language=" ++ language else apiEndpoint
  apiEndpoint ++ "&depth=0&limit=2000&skip=0"

/-- The `while (isNextPage)` loop of `getItems` with its `catch` block. -/
def getItemsLoop (fetch : String → FetchResult ItemsResponse) :
    Nat → String → List (List ContentItem) → List String → PageRun ContentItem
  | 0, _, _, log => { outcome := Outcome.outOfFuel, requests := log }
  | fuel + 1, endpoint, retrievedItems, log =>
    match callAPI fetch endpoint with
    | Except.error message =>
      { outcome := Outcome.threw ("Error occured retrieving your content items: " ++ message)
        requests := log ++ [endpoint] }
    | Except.ok response =>
      if response.pagination.next_page = "" then
        { outcome := Outcome.returned (retrievedItems ++ [response.items]).flatten
          requests := log ++ [endpoint] }
      else
        getItemsLoop fetch fuel response.pagination.next_page
          (retrievedItems ++ [response.items]) (log ++ [endpoint])

/-- Models `getItems(types, language)`; `fuel` bounds the number of iterations. -/
def getItems (fetch : String → FetchResult ItemsResponse) (endpointURL types language : String)
    (fuel : Nat) : PageRun ContentItem :=
  getItemsLoop fetch fuel (setCallParameters endpointURL types language) [] []

/-! ## User inputs and flow control (`processUserInputs`, `controlScript`) -/

/-- The three fields of the form. -/
structure Inputs where
  project : String
  language : String
  previewKey : String
  deriving DecidableEq, Repr

/-- The remote collaborators of a run. The first argument of the three content
API listings is the `Authorization` header sent, if any. -/
structure World (ι : Type) where
  fetchLanguages : Option String → String → FetchResult LanguagesResponse
  fetchTypes : Option String → String → FetchResult TypesResponse
  fetchItems : Option String → String → FetchResult ItemsResponse
  service : Nat → List LinkGroup → PingResult
  JSONparse : String → Except String ι

/-- The constant `kontentURL`. -/
def kontentURL : String := "deliver.kontent.ai"

/-- The `Authorization` header that `processUserInputs` sets for a preview key. -/
def headersOf (inputs : Inputs) : Option String :=
  if inputs.previewKey ≠ "" then some ("Bearer " ++ inputs.previewKey) else none

/-- The value that `processUserInputs` gives to `endpointURL`. -/
def endpointURLOf (inputs : Inputs) : String :=
  if inputs.previewKey ≠ "" then "https://preview-" ++ kontentURL ++ "/" ++ inputs.project
  else "https://" ++ kontentURL ++ "/" ++ inputs.project

/-- Models `getLanguageID(languageCodename)`: the outcome and the endpoint requested. -/
def getLanguageID (fetch : String → FetchResult LanguagesResponse)
    (endpointURL languageCodename : String) : Except String String × List String :=
  let url := endpointURL ++ "/languages?system.codename=" ++ languageCodename
  match callAPI fetch url with
  | Except.error message => (Except.error message, [url])
  | Except.ok languageInfo =>
    match languageInfo.languages with
    | first :: _ => (Except.ok first.system.id, [url])
    | [] => (Except.error "Language Codename appears to be invalid.", [url])

/-- What `processUserInputs` leaves behind: the returned `language` and the
globals it sets. -/
structure Settings where
  language : String
  headers : Option String
  endpointURL : String
  linkToContentItem : String
  deriving DecidableEq, Repr

/-- Models `processUserInputs()`: the outcome and the endpoints requested. -/
def processUserInputs {ι : Type} (world : World ι) (inputs : Inputs) :
    Except String Settings × List String :=
  let language := inputs.language
  let headers := headersOf inputs
  let endpointURL := endpointURLOf inputs
  let looked : Except String String × List String :=
    if language ≠ "" then getLanguageID (world.fetchLanguages headers) endpointURL language
    else (Except.ok "00000000-0000-0000-0000-000000000000", [])
  match looked with
  | (Except.error message, log) => (Except.error message, log)
  | (Except.ok languageID, log) =>
    (Except.ok
      { language := language
        headers := headers
        endpointURL := endpointURL
        linkToContentItem :=
          "https://app.kontent.ai/" ++ inputs.project ++ "/content-inventory/" ++ languageID ++
            "/content/" }, log)

/-- Models `checkTypes()`: `getTypes` then `findRichTextTypes`; an error is rethrown
with the same message. The second component is the endpoints requested. -/
def checkTypes (fetch : String → FetchResult TypesResponse) (endpointURL : String)
    (fuel : Nat) : Outcome String × List String :=
  let run := getTypes fetch endpointURL fuel
  match run.outcome with
  | Outcome.returned typesInProject => (Outcome.returned (findRichTextTypes typesInProject), run.requests)
  | Outcome.threw message => (Outcome.threw message, run.requests)
  | Outcome.outOfFuel => (Outcome.outOfFuel, run.requests)

/-- Models `findExternalLinks(types, language)`: `getItems` then `findURLsInRichText`;
an error is rethrown with the same message. -/
def findExternalLinks (fetch : String → FetchResult ItemsResponse)
    (endpointURL types language : String) (fuel : Nat) :
    Outcome (List LinkGroup × Nat) × List String :=
  let run := getItems fetch endpointURL types language fuel
  match run.outcome with
  | Outcome.returned richTextItems => (Outcome.returned (findURLsInRichText richTextItems), run.requests)
  | Outcome.threw message => (Outcome.threw message, run.requests)
  | Outcome.outOfFuel => (Outcome.outOfFuel, run.requests)

/-- How a run of `controlScript` ended. -/
inductive ControlEnd where
  /-- The function returned (after its `try` or its `catch` block). -/
  | returned
  /-- A paginator loop is still running when the fuel is spent. -/
  | outOfFuel
  /-- The call of `testLinks` awaits a read that never comes. -/
  | pending
  deriving DecidableEq, Repr

/-- The observable trace of `controlScript`: the endpoints requested from each
listing, the notifications displayed, and the run of `testLinks` if it was
called. -/
structure ControlRun (ι : Type) where
  languageRequests : List String
  typeRequests : List String
  itemRequests : List String
  notifications : List Notification
  ping : Option (PingRun LinkGroup ι)
  ending : ControlEnd

/-- Models `controlScript()`; `fuel` bounds the iterations of each paginator loop. -/
def controlScript {ι : Type} (world : World ι) (inputs : Inputs) (fuel : Nat) : ControlRun ι :=
  match processUserInputs world inputs with
  | (Except.error message, langLog) =>
    { languageRequests := langLog, typeRequests := [], itemRequests := []
      notifications := [⟨message, "is-danger"⟩], ping := none, ending := ControlEnd.returned }
  | (Except.ok settings, langLog) =>
    match checkTypes (world.fetchTypes settings.headers) settings.endpointURL fuel with
    | (Outcome.outOfFuel, typeLog) =>
      { languageRequests := langLog, typeRequests := typeLog, itemRequests := []
        notifications := [], ping := none, ending := ControlEnd.outOfFuel }
    | (Outcome.threw message, typeLog) =>
      { languageRequests := langLog, typeRequests := typeLog, itemRequests := []
        notifications := [⟨message, "is-danger"⟩], ping := none, ending := ControlEnd.returned }
    | (Outcome.returned anyRichTextTypes, typeLog) =>
      if anyRichTextTypes = "" then
        { languageRequests := langLog, typeRequests := typeLog, itemRequests := []
          notifications :=
            [⟨"No Content Types with Rich Text Elements found.", "is-warning"⟩,
              ⟨"Process Aborted", "is-danger"⟩]
          ping := none, ending := ControlEnd.returned }
      else
        match findExternalLinks (world.fetchItems settings.headers) settings.endpointURL
            anyRichTextTypes settings.language fuel with
        | (Outcome.outOfFuel, itemLog) =>
          { languageRequests := langLog, typeRequests := typeLog, itemRequests := itemLog
            notifications := [], ping := none, ending := ControlEnd.outOfFuel }
        | (Outcome.threw message, itemLog) =>
          { languageRequests := langLog, typeRequests := typeLog, itemRequests := itemLog
            notifications := [⟨message, "is-danger"⟩], ping := none
            ending := ControlEnd.returned }
        | (Outcome.returned anyURLs, itemLog) =>
          if anyURLs.1.length = 0 then
            { languageRequests := langLog, typeRequests := typeLog, itemRequests := itemLog
              notifications :=
                [⟨"No external URLs found", "is-warning"⟩, ⟨"Process Aborted", "is-danger"⟩]
              ping := none, ending := ControlEnd.returned }
          else
            let found : Notification :=
              ⟨toString anyURLs.2 ++ " URLs found for testing", "is-success"⟩
            match testLinks world.service world.JSONparse anyURLs.1 with
            | (RunEnd.returned, run) =>
              { languageRequests := langLog, typeRequests := typeLog, itemRequests := itemLog
                notifications := found :: run.notifications, ping := some run
                ending := ControlEnd.returned }
            | (RunEnd.pending, run) =>
              { languageRequests := langLog, typeRequests := typeLog, itemRequests := itemLog
                notifications := found :: run.notifications, ping := some run
                ending := ControlEnd.pending }

/-! ## The probe of the validation service (`makeRequest`) -/

/-- What the HTTP exchange of a probe comes to: a response was received, with
its status code and the URL of the response that was finally received (after
the redirects that were followed), or no response was received. -/
inductive Probe where
  | received (status : Nat) (responseUrl : String)
  | noResponse
  deriving DecidableEq, Repr

/-- How `axios.get(url)` settles. -/
inductive AxiosResult where
  /-- The promise resolves with `response`. -/
  | resolved (status : Nat) (responseUrl : String)
  /-- The promise rejects with an error that has a `response`. -/
  | rejectedWithResponse (status : Nat)
  /-- The promise rejects with an error that has no `response`. -/
  | rejectedNoResponse
  deriving DecidableEq, Repr

/-- Models `axios.get(url)` with the default configuration, which is how `makeRequest`
calls it: the default `validateStatus` resolves the promise for a status from
200 to 299 and rejects it, with the response attached to the error, for every
other status. -/
def axiosGet : Probe → AxiosResult
  | Probe.received status responseUrl =>
    if 200 ≤ status ∧ status < 300 then AxiosResult.resolved status responseUrl
    else AxiosResult.rejectedWithResponse status
  | Probe.noResponse => AxiosResult.rejectedNoResponse

/-- The second entry of the array that `makeRequest` returns: a number of
milliseconds or a text. -/
inductive ResponseTime where
  | ms (elapsed : Int)
  | text (value : String)
  deriving DecidableEq, Repr

/-- The array `[status, responseTime, isRedirected, errored]` of `makeRequest`. -/
structure ResponseInfo where
  status : Nat
  responseTime : ResponseTime
  redirected : Bool
  errored : Bool
  deriving DecidableEq, Repr

/-- Models `makeRequest(url)`; `startTime` and `endTime` are the two readings of
`Date.now()`, `probe` is what the network gives for `url`. -/
def makeRequest (url : String) (startTime endTime : Int) (probe : Probe) : ResponseInfo :=
  match axiosGet probe with
  | AxiosResult.resolved status responseUrl =>
    let responseTime := endTime - startTime
    let isRedirected := decide (responseUrl ≠ url)
    { status := status, responseTime := ResponseTime.ms responseTime,
      redirected := isRedirected, errored := false }
  | AxiosResult.rejectedWithResponse status =>
    { status := status, responseTime := ResponseTime.text "Not Calculated",
      redirected := false, errored := true }
  | AxiosResult.rejectedNoResponse =>
    { status := 500, responseTime := ResponseTime.text "None - Unexpected Internal Error",
      redirected := false, errored := true }

/-! ## The validation endpoint (`POST /ping`) -/

/-- A scalar JSON value, as a property of a submitted link may hold one. -/
inductive JsonValue where
  | null
  | bool (b : Bool)
  | number (n : Int)
  | string (s : String)
  deriving DecidableEq, Repr

/-- A link object of the request body, with its properties in the order in
which the client builds them and the handler adds to them. `URL` is the string
that is probed; for the other four properties `none` stands for a property that
the object does not have. -/
structure PingLink where
  URL : String
  Response : Option JsonValue
  ResponseTime : Option JsonValue
  Redirected : Option JsonValue
  Error : Option JsonValue
  deriving DecidableEq, Repr

/-- A link group object of the request body. -/
structure PingGroup where
  Name : String
  URLs : List PingLink
  systemID : String
  deriving DecidableEq, Repr

/-- What the network and the clock give to one call of `makeRequest`. -/
structure Exchange where
  startTime : Int
  endTime : Int
  probe : Probe
  deriving DecidableEq, Repr

/-- The character that `QuoteJSONString` writes for a character of a string:
the short escapes, `\u00XX` for the other control characters, and the
character itself otherwise. -/
def quoteChar (c : Char) : List Char :=
  if c = Char.ofNat 8 then "\\b".data
  else if c = Char.ofNat 9 then "\\t".data
  else if c = Char.ofNat 10 then "\\n".data
  else if c = Char.ofNat 12 then "\\f".data
  else if c = Char.ofNat 13 then "\\r".data
  else if c = Char.ofNat 34 then "\\\"".data
  else if c = Char.ofNat 92 then "\\\\".data
  else if c.toNat < 0x20 then
    "\\u00".data ++ [Nat.digitChar (c.toNat / 16), Nat.digitChar (c.toNat % 16)]
  else [c]

/-- The JSON text of a string (`QuoteJSONString`). -/
def quoteJSONString (s : String) : List Char :=
  dquote :: s.data.flatMap quoteChar ++ [dquote]

/-- The JSON text of a scalar value. A number is an integer here (a status code
or a difference of two readings of the clock) and is written in decimal. -/
def stringifyValue : JsonValue → List Char
  | JsonValue.null => "null".data
  | JsonValue.bool true => "true".data
  | JsonValue.bool false => "false".data
  | JsonValue.number n => (toString n).data
  | JsonValue.string s => quoteJSONString s

/-- The texts of the members of an object or array, separated by commas. -/
def commaJoin : List (List Char) → List Char
  | [] => []
  | [x] => x
  | x :: y :: rest => x ++ ',' :: commaJoin (y :: rest)

/-- The JSON text of a member `key: value` of an object. -/
def property (key : String) (value : List Char) : List Char :=
  quoteJSONString key ++ ':' :: value

/-- The member of a property that may be absent: `JSON.stringify` writes
nothing for a property that the object does not have. -/
def optionalProperty (key : String) : Option JsonValue → List (List Char)
  | none => []
  | some value => [property key (stringifyValue value)]

/-- The JSON text of a link object. -/
def stringifyLink (link : PingLink) : List Char :=
  Char.ofNat 0x7B ::
    commaJoin
      ([property "URL" (quoteJSONString link.URL)] ++
        optionalProperty "Response" link.Response ++
        optionalProperty "ResponseTime" link.ResponseTime ++
        optionalProperty "Redirected" link.Redirected ++
        optionalProperty "Error" link.Error) ++
    [Char.ofNat 0x7D]

/-- Models `JSON.stringify(item)` for a link group: one line of JSON text,
without indentation. -/
def JSONstringify (item : PingGroup) : String :=
  String.mk
    (Char.ofNat 0x7B ::
      commaJoin
        [property "Name" (quoteJSONString item.Name),
          property "URLs" ('[' :: commaJoin (item.URLs.map stringifyLink) ++ [']']),
          property "systemID" (quoteJSONString item.systemID)] ++
      [Char.ofNat 0x7D])

/-- The four assignments of the inner loop of the handler: `url.Response`,
`url.ResponseTime`, `url.Redirected` and `url.Error` are set from the array
that `makeRequest` returned. -/
def setResult (url : PingLink) (responseInfo : ResponseInfo) : PingLink :=
  { url with
    Response := some (JsonValue.number responseInfo.status)
    ResponseTime := some
      (match responseInfo.responseTime with
        | ResponseTime.ms elapsed => JsonValue.number elapsed
        | ResponseTime.text value => JsonValue.string value)
    Redirected := some (JsonValue.bool responseInfo.redirected)
    Error := some (JsonValue.bool responseInfo.errored) }

/-- The loop `for (const url of item.URLs)` of the handler. `network count url`
is what the probe number `count` of the request, made for `url`, comes to. -/
def probeLinks (network : Nat → String → Exchange) : Nat → List PingLink → List PingLink
  | _, [] => []
  | count, url :: rest =>
    let exchange := network count url.URL
    let responseInfo := makeRequest url.URL exchange.startTime exchange.endTime exchange.probe
    setResult url responseInfo :: probeLinks network (count + 1) rest

/-- The response of the handler as the client sees it. -/
structure ServerResponse where
  statusCode : Nat
  headers : List (String × String)
  body : List String
  trailers : List (String × String)
  ended : Bool
  deriving DecidableEq, Repr

/-- A run of the handler: the objects of `req.body` as the run leaves them,
the URLs probed in order, and the response. -/
structure HandlerRun where
  items : List PingGroup
  probed : List String
  response : ServerResponse
  deriving DecidableEq, Repr

/-- The loop `for (const item of items)` of the handler: probe the links of
the item, then write the item as one line. The state is the number of probes
made so far and the run so far. -/
def pingLoop (network : Nat → String → Exchange) : List PingGroup → HandlerRun → HandlerRun
  | [], run => run
  | item :: rest, run =>
    let done : PingGroup :=
      { item with URLs := probeLinks network run.probed.length item.URLs }
    pingLoop network rest
      { items := run.items ++ [done]
        probed := run.probed ++ item.URLs.map (fun url => url.URL)
        response := { run.response with body := run.response.body ++ [JSONstringify done ++ "\n"] } }

/-- The handler of `POST /ping` for the request body `items`. -/
def ping (network : Nat → String → Exchange) (items : List PingGroup) : HandlerRun :=
  let run := pingLoop network items
    { items := []
      probed := []
      response :=
        { statusCode := 200
          headers := [("Content-Type", "application/json"), ("Transfer-Encoding", "chunked"),
            ("Trailer", "Content-MD5")]
          body := []
          trailers := []
          ended := false } }
  { run with
    response :=
      { run.response with trailers := [("Content-MD5", "<md5-checksum>")], ended := true } }

/-! ## Specifications the code is compared with -/

/-- Specification: the link record of one matched anchor. -/
def specLink (anchor : String) : Link :=
  { URL := (split anchor dquote)[1]?, Response := "", ResponseTime := "" }

/-- Specification: the links of one element, which are the matches of its value
in match order when its type is `rich_text`, and none otherwise. -/
def specElementLinks (element : Element) : List Link :=
  if element.type = "rich_text" then
    ((matchAll regex element.value.data 0).map String.mk).map specLink
  else []

/-- Specification: the links of an item, element after element. -/
def specItemLinks (item : ContentItem) : List Link :=
  item.elements.flatMap (fun entry => specElementLinks entry.2)

/-- Specification: one group per item that has a link, in item order. -/
def specGroups (items : List ContentItem) : List LinkGroup :=
  items.filterMap (fun item =>
    if specItemLinks item = [] then none
    else some { Name := item.system.name, URLs := specItemLinks item, systemID := item.system.id })

/-- Specification: the type has at least one element of type `rich_text`. -/
def HasRichText (type : ContentType) : Prop :=
  ∃ entry ∈ type.elements, entry.2.type = "rich_text"

instance decidableHasRichText (type : ContentType) : Decidable (HasRichText type) := by
  unfold HasRichText; infer_instance

/-- Specification: a chain of item pages served from `endpoint` on. Every page
is served with a 2xx status at the `next_page` of the page before it (the first
at `endpoint`), and only the last page has the empty `next_page`. -/
def ItemsChain (fetch : String → FetchResult ItemsResponse) : String → List ItemsResponse → Prop
  | _, [] => False
  | endpoint, [page] =>
    (∃ status, statusOk status = true ∧
        fetch endpoint = FetchResult.response status (Except.ok page)) ∧
      page.pagination.next_page = ""
  | endpoint, page :: next :: rest =>
    (∃ status, statusOk status = true ∧
        fetch endpoint = FetchResult.response status (Except.ok page)) ∧
      page.pagination.next_page ≠ "" ∧ ItemsChain fetch page.pagination.next_page (next :: rest)

/-- Specification: a retrieval that fails after the given pages. They are
served as a chain from `endpoint` on, none of them the last, and the request
that follows them gets a response with the non-2xx `status`. -/
def ItemsFailure (fetch : String → FetchResult ItemsResponse) :
    String → List ItemsResponse → Nat → Prop
  | endpoint, [], status =>
    statusOk status = false ∧ ∃ json, fetch endpoint = FetchResult.response status json
  | endpoint, page :: rest, status =>
    (∃ s, statusOk s = true ∧ fetch endpoint = FetchResult.response s (Except.ok page)) ∧
      page.pagination.next_page ≠ "" ∧ ItemsFailure fetch page.pagination.next_page rest status

/-- Specification: the text of a body of complete lines, every line followed by
the separator. -/
def joinLines (sep : Char) (ls : List (List Char)) : List Char :=
  (ls.map (fun l => l ++ [sep])).flatten

/-- The result of the probe number `count` of a request, made for `url`. -/
def probeOf (network : Nat → String → Exchange) (count : Nat) (url : String) : ResponseInfo :=
  makeRequest url (network count url).startTime (network count url).endTime
    (network count url).probe

/-- Specification: `written` is `submitted` with its four result properties
set from `responseInfo` and its URL as submitted. -/
def ResultOf (responseInfo : ResponseInfo) (submitted written : PingLink) : Prop :=
  written.URL = submitted.URL ∧
  written.Response = some (JsonValue.number responseInfo.status) ∧
  written.ResponseTime = some
    (match responseInfo.responseTime with
      | ResponseTime.ms elapsed => JsonValue.number elapsed
      | ResponseTime.text value => JsonValue.string value) ∧
  written.Redirected = some (JsonValue.bool responseInfo.redirected) ∧
  written.Error = some (JsonValue.bool responseInfo.errored)

/-- Specification: the groups as the handler leaves them when `count` probes
were made before the first: every link, numbered in submission order, has the
result of the probe of that number, made for its own URL. -/
def probedGroups (network : Nat → String → Exchange) : Nat → List PingGroup → List PingGroup
  | _, [] => []
  | count, item :: rest =>
    { item with
      URLs := (item.URLs.enumFrom count).map
        (fun p => setResult p.2 (probeOf network p.1 p.2.URL)) } ::
      probedGroups network (count + item.URLs.length) rest

/-! ## Concrete inputs -/

/-- An item with one rich-text element whose anchor has a `class` attribute
before `href`. -/
def anchorWithClass : ContentItem :=
  { system := { id := "id-1", name := "Article", codename := "article" },
    elements := [("body",
      { type := "rich_text", value := "<a class=\"x\" href=\"https://e.com\">t</a>" })] }

/-- An item with a rich-text element holding one anchor, a plain text element
holding anchor markup, and a second rich-text element holding two anchors. -/
def threeAnchorItem : ContentItem :=
  { system := { id := "id-2", name := "Guide", codename := "guide" },
    elements :=
      [("intro", { type := "rich_text", value := "<p><a href=\"https://a.com/1\">one</a></p>" }),
        ("note", { type := "text", value := "<a href=\"https://skipped.com\">no</a>" }),
        ("body", { type := "rich_text",
                   value := "<a href=\"http://b.org\">two</a> and <a href=\"https://c.net\" target=\"_blank\">three</a>" })] }

/-- An item whose only rich-text element has no anchor. -/
def noAnchorItem : ContentItem :=
  { system := { id := "id-3", name := "Empty", codename := "empty" },
    elements := [("body", { type := "rich_text", value := "<p>nothing here</p>" })] }

/-- A link group for the `n`-th item of a run. -/
def sampleGroup (n : Nat) : LinkGroup :=
  { Name := "Item " ++ toString n
    URLs := [{ URL := some "https://e.com", Response := "", ResponseTime := "" }]
    systemID := "id-" ++ toString n }

/-- Fifty-one link groups: two chunks. -/
def fiftyOneGroups : List LinkGroup := (List.range 51).map sampleGroup

/-- A validation service that answers the first request with status 500 and an
empty body, and every later request with status 200 and an empty body. -/
def failingFirstService (index : Nat) (_chunk : List LinkGroup) : PingResult :=
  if index = 0 then PingResult.response 500 (readsOf []) else PingResult.response 200 (readsOf [])

/-- A result line as the validation service writes it, for a content item
whose name has a character outside ASCII. -/
def cafeLine : String :=
  "\x7b\"Name\":\"Café\",\"URLs\":[\x7b\"URL\":\"https://e.com\",\"Response\":200,\"ResponseTime\":12,\"Redirected\":false,\"Error\":false\x7d],\"systemID\":\"id-1\"\x7d"

/-- The same line with each of the two bytes of U+00E9 decoded on its own, as
U+FFFD. -/
def cafeLineBroken : String :=
  "\x7b\"Name\":\"Caf\uFFFD\uFFFD\",\"URLs\":[\x7b\"URL\":\"https://e.com\",\"Response\":200,\"ResponseTime\":12,\"Redirected\":false,\"Error\":false\x7d],\"systemID\":\"id-1\"\x7d"

/-- The start of the line up to the first byte of U+00E9, decoded on its own. -/
def cafeHead : String := "\x7b\"Name\":\"Caf\uFFFD"

/-- The body of the response: the line and its newline, in UTF-8. -/
def cafeBody : List Byte := utf8Bytes (cafeLine ++ "\n")

/-- A content type with one element of the given type tag. -/
def sampleType (codename elementType : String) : ContentType :=
  { system := { id := "type-" ++ codename, name := codename, codename := codename }
    elements := [("body", { type := elementType, value := "" })] }

/-- The base address of the sample project. -/
def sampleBase : String := "https://deliver.kontent.ai/p1"

/-- The endpoint of the first page of types. -/
def typesFirst : String := sampleBase ++ "/types?limit=2000&skip=0"

/-- The endpoint of the second page of types. -/
def typesSecond : String := sampleBase ++ "/types?limit=2000&skip=2000"

/-- A catalog served in two pages: the first page points to the second, the
second has the empty `next_page`. -/
def twoTypePages (endpoint : String) : FetchResult TypesResponse :=
  if endpoint = typesFirst then
    FetchResult.response 200
      (Except.ok { types := [sampleType "article" "rich_text"], pagination := ⟨typesSecond⟩ })
  else if endpoint = typesSecond then
    FetchResult.response 200
      (Except.ok { types := [sampleType "author" "text"], pagination := ⟨""⟩ })
  else FetchResult.response 404 (Except.error "Unexpected token")

/-- A content item with one rich-text element. -/
def sampleItem (name value : String) : ContentItem :=
  { system := { id := "id-" ++ name, name := name, codename := name }
    elements := [("body", { type := "rich_text", value := value })] }

/-- The first endpoint of the item retrieval of the sample project. -/
def itemsFirst : String := setCallParameters sampleBase "article" ""

/-- First page of the sample item listing. -/
def itemPage1 : ItemsResponse :=
  { items := [sampleItem "one" "", sampleItem "two" ""], pagination := ⟨"https://next/2"⟩ }

/-- Second page of the sample item listing. -/
def itemPage2 : ItemsResponse :=
  { items := [sampleItem "three" ""], pagination := ⟨"https://next/3"⟩ }

/-- Third and last page of the sample item listing. -/
def itemPage3 : ItemsResponse :=
  { items := [sampleItem "four" ""], pagination := ⟨""⟩ }

/-- An item listing served in three pages. -/
def threeItemPages (endpoint : String) : FetchResult ItemsResponse :=
  if endpoint = itemsFirst then FetchResult.response 200 (Except.ok itemPage1)
  else if endpoint = "https://next/2" then FetchResult.response 200 (Except.ok itemPage2)
  else if endpoint = "https://next/3" then FetchResult.response 200 (Except.ok itemPage3)
  else FetchResult.response 404 (Except.error "Unexpected token")

/-- An item listing whose second page is answered with status 404. -/
def secondPageMissing (endpoint : String) : FetchResult ItemsResponse :=
  if endpoint = itemsFirst then FetchResult.response 200 (Except.ok itemPage1)
  else FetchResult.response 404 (Except.error "Unexpected token")

/-- A world whose catalog is one page with no rich-text type; every other
request is answered with status 404. -/
def plainWorld : World Unit :=
  { fetchLanguages := fun _ _ => FetchResult.response 404 (Except.error "Unexpected token")
    fetchTypes := fun _ _ =>
      FetchResult.response 200
        (Except.ok { types := [sampleType "author" "text", sampleType "tag" "number"],
                     pagination := ⟨""⟩ })
    fetchItems := fun _ _ => FetchResult.response 404 (Except.error "Unexpected token")
    service := fun _ _ => PingResult.failed "Failed to fetch"
    JSONparse := fun _ => Except.ok () }

/-- The form filled in with a project identifier only. -/
def plainInputs : Inputs := { project := "p1", language := "", previewKey := "" }

/-- The group of the content item `Café` with one link, as the client submits it. -/
def cafeGroup : PingGroup :=
  { Name := "Café"
    URLs := [{ URL := "https://e.com", Response := some (JsonValue.string ""),
               ResponseTime := some (JsonValue.string ""), Redirected := none, Error := none }]
    systemID := "id-1" }

/-- A network on which every probe takes 12 ms and gets status 200 from the
requested URL. -/
def plainNetwork (_count : Nat) (url : String) : Exchange :=
  { startTime := 1000, endTime := 1012, probe := Probe.received 200 url }

/-- Two groups with three links in all. -/
def twoPingGroups : List PingGroup :=
  [{ Name := "One"
     URLs := [{ URL := "https://a.com", Response := some (JsonValue.string ""),
                ResponseTime := some (JsonValue.string ""), Redirected := none, Error := none },
              { URL := "https://b.org/x", Response := some (JsonValue.string ""),
                ResponseTime := some (JsonValue.string ""), Redirected := none, Error := none }]
     systemID := "id-1" },
   { Name := "Two"
     URLs := [{ URL := "https://c.net", Response := some (JsonValue.string ""),
                ResponseTime := some (JsonValue.string ""), Redirected := none, Error := none }]
     systemID := "id-2" }]

/-- A network on which the first probe is redirected and gets status 200 after
30 ms, the second gets status 404, and every later probe gets no response. -/
def mixedNetwork (count : Nat) (url : String) : Exchange :=
  if count = 0 then
    { startTime := 5000, endTime := 5030, probe := Probe.received 200 (url ++ "/home") }
  else if count = 1 then
    { startTime := 5030, endTime := 5041, probe := Probe.received 404 url }
  else { startTime := 5041, endTime := 5050, probe := Probe.noResponse }

/-! # Theorems -/

/-! ## Link extraction -/

theorem foldl_pushLink (urlsFound : List String) (acc : List Link × Nat) :
    urlsFound.foldl pushLink acc =
      (acc.1 ++ urlsFound.map specLink, acc.2 + urlsFound.length) := by
  induction urlsFound generalizing acc with
  | nil => simp
  | cons u us ih =>
    rw [List.foldl_cons, ih]
    simp [pushLink, specLink, Nat.add_assoc, Nat.add_comm 1]

theorem scanElement_eq (acc : List Link × Nat) (entry : String × Element) :
    scanElement acc entry =
      (acc.1 ++ specElementLinks entry.2, acc.2 + (specElementLinks entry.2).length) := by
  unfold scanElement specElementLinks extractURLs
  by_cases h : entry.2.type = "rich_text"
  · simp only [h, if_true]
    cases hm : matchAll regex entry.2.value.data 0 with
    | nil => simp
    | cons m ms => simp [foldl_pushLink, pushLink, specLink, Nat.add_assoc, Nat.add_comm 1]
  · simp [h]

theorem foldl_scanElement (elements : List (String × Element)) (acc : List Link × Nat) :
    elements.foldl scanElement acc =
      (acc.1 ++ elements.flatMap (fun entry => specElementLinks entry.2),
        acc.2 + (elements.flatMap (fun entry => specElementLinks entry.2)).length) := by
  induction elements generalizing acc with
  | nil => simp
  | cons e es ih =>
    rw [List.foldl_cons, ih, scanElement_eq]
    simp [List.flatMap_cons, Nat.add_assoc]

theorem scanItem_eq (acc : List LinkGroup × Nat) (item : ContentItem) :
    scanItem acc item =
      (acc.1 ++ specGroups [item], acc.2 + (specItemLinks item).length) := by
  unfold scanItem
  rw [foldl_scanElement]
  simp only [List.nil_append]
  change (if (specItemLinks item).length > 0 then _ else _) = _
  by_cases h : specItemLinks item = []
  · have h0 : ¬ (specItemLinks item).length > 0 := by simp [h]
    rw [if_neg h0]
    have h2 : (item.elements.flatMap (fun entry => specElementLinks entry.2)) = [] := h
    simp only [specGroups, List.filterMap_cons, h, h2, if_true, List.filterMap_nil,
      List.append_nil]
  · have h3 : (specItemLinks item).length > 0 := List.length_pos.mpr h
    rw [if_pos h3]
    simp only [specGroups, List.filterMap_cons, h, if_false, List.filterMap_nil]
    rfl

theorem foldl_scanItem (items : List ContentItem) (acc : List LinkGroup × Nat) :
    items.foldl scanItem acc =
      (acc.1 ++ specGroups items, acc.2 + ((items.map specItemLinks).flatten).length) := by
  induction items generalizing acc with
  | nil => simp [specGroups]
  | cons i is ih =>
    rw [List.foldl_cons, ih, scanItem_eq]
    simp [specGroups, List.filterMap_cons, Nat.add_assoc]
    cases h : (if specItemLinks i = [] then none
      else some ({ Name := i.system.name, URLs := specItemLinks i,
                   systemID := i.system.id } : LinkGroup)) <;> simp

/-- Claim C1, evaluated on the code: for the rich-text value
`<a class="x" href="https://e.com">t</a>` the pattern of `extractURLs` matches
the whole anchor, and the link record that `findURLsInRichText` creates for it
has the URL `x`, the value of the `class` attribute, and not the interior of
the quoted value of `href`, which is `https://e.com`. -/
theorem anchor_with_class_url :
    extractURLs "<a class=\"x\" href=\"https://e.com\">t</a>" =
      some ["<a class=\"x\" href=\"https://e.com\">t</a>"] ∧
    findURLsInRichText [anchorWithClass] =
      ([{ Name := "Article",
          URLs := [{ URL := some "x", Response := "", ResponseTime := "" }],
          systemID := "id-1" }], 1) ∧
    (some "x" : Option String) ≠ some "https://e.com" := by
  refine ⟨by decide, by decide, by decide⟩

/-- An anchor whose first attribute is `href` gets the interior of the quoted
value of `href` as its URL. -/
theorem anchor_href_first_url :
    (findURLsInRichText [sampleItem "one" "<a href=\"https://e.com\">t</a>"]).1.map
        (fun g => g.URLs.map (fun l => l.URL)) = [[some "https://e.com"]] := by
  decide

/-- Claim C6: `findURLsInRichText` returns, in item order, one group for each
item that has at least one anchor match in its rich-text elements and none for
any other item; the links of a group are the matches of the rich-text elements
of the item in element order and then in match order, elements of another type
contribute no link, every returned group has at least one link, and the count
returned with the groups is the total number of links. -/
theorem findURLsInRichText_groups (items : List ContentItem) :
    (findURLsInRichText items).1 = specGroups items ∧
    (∀ g ∈ (findURLsInRichText items).1, g.URLs ≠ []) ∧
    (findURLsInRichText items).2 = ((items.map specItemLinks).flatten).length := by
  have h := foldl_scanItem items ([], 0)
  simp only [List.nil_append, Nat.zero_add] at h
  unfold findURLsInRichText
  rw [h]
  refine ⟨rfl, ?_, rfl⟩
  intro g hg
  simp only [specGroups, List.mem_filterMap] at hg
  obtain ⟨item, _, hi⟩ := hg
  by_cases hl : specItemLinks item = []
  · simp [hl] at hi
  · simp only [hl, if_false, Option.some.injEq] at hi
    rw [← hi]; exact hl

set_option maxRecDepth 100000 in
/-- Claim C6 at a concrete input: an item without anchors, then an item with
one anchor in its first rich-text element, anchor markup in a text element and
two anchors in its second rich-text element, give one group with three links
in document order. -/
theorem findURLsInRichText_groups_witness :
    (findURLsInRichText [noAnchorItem, threeAnchorItem]).1 =
      specGroups [noAnchorItem, threeAnchorItem] ∧
    specGroups [noAnchorItem, threeAnchorItem] =
      [{ Name := "Guide",
         URLs := [{ URL := some "https://a.com/1", Response := "", ResponseTime := "" },
                  { URL := some "http://b.org", Response := "", ResponseTime := "" },
                  { URL := some "https://c.net", Response := "", ResponseTime := "" }],
         systemID := "id-2" }] ∧
    (findURLsInRichText [noAnchorItem, threeAnchorItem]).2 = 3 :=
  ⟨(findURLsInRichText_groups [noAnchorItem, threeAnchorItem]).1, by decide, by decide⟩

/-! ## Chunk partition -/

theorem chunkAt_eq {γ : Type} (objects : List γ) (index : Nat) :
    chunkAt objects index = (objects.drop (index * chunkSize)).take chunkSize := by
  unfold chunkAt slice
  rw [List.drop_take]
  congr 1
  have : (index + 1) * chunkSize = index * chunkSize + chunkSize := by ring
  omega

theorem length_chunkAt {γ : Type} (objects : List γ) (index : Nat) :
    (chunkAt objects index).length = min chunkSize (objects.length - index * chunkSize) := by
  rw [chunkAt_eq, List.length_take, List.length_drop]

theorem flatten_chunks_take {γ : Type} (objects : List γ) (n : Nat) :
    ((List.range n).map (chunkAt objects)).flatten = objects.take (n * chunkSize) := by
  induction n with
  | zero => simp
  | succ n ih =>
    rw [List.range_succ, List.map_append, List.flatten_append, ih]
    simp only [List.map_cons, List.map_nil, List.flatten_cons, List.flatten_nil,
      List.append_nil]
    rw [chunkAt_eq, Nat.succ_mul, List.take_add]

theorem numberOfChunks_eq_ceil {γ : Type} (objects : List γ) :
    numberOfChunks objects = ⌈(objects.length : ℚ) / 50⌉₊ := by
  unfold numberOfChunks chunkSize
  symm
  by_cases h : objects.length = 0
  · simp [h]
  · rw [Nat.ceil_eq_iff (by omega)]
    constructor
    · rw [lt_div_iff₀ (by norm_num)]
      have : ((objects.length + (50 - 1)) / 50 - 1) * 50 < objects.length := by omega
      exact_mod_cast this
    · rw [div_le_iff₀ (by norm_num)]
      have : objects.length ≤ ((objects.length + (50 - 1)) / 50) * 50 := by omega
      exact_mod_cast this

/-- Claim C2: the chunks that `testLinks` builds from a list of length `L` are
`ceil(L / 50)` in number, every chunk but the last has length 50, the last has
a length from 1 to 50, and the chunks concatenated in order are the list. -/
theorem chunks_partition {γ : Type} (objects : List γ) :
    (builtChunks objects).length = ⌈(objects.length : ℚ) / 50⌉₊ ∧
    (∀ i, i + 1 < (builtChunks objects).length →
      ((builtChunks objects)[i]?).map List.length = some 50) ∧
    (∀ last, (builtChunks objects).getLast? = some last →
      1 ≤ last.length ∧ last.length ≤ 50) ∧
    (builtChunks objects).flatten = objects := by
  have hlen : (builtChunks objects).length = numberOfChunks objects := by
    simp [builtChunks]
  refine ⟨by rw [hlen, numberOfChunks_eq_ceil], ?_, ?_, ?_⟩
  · intro i hi
    rw [hlen] at hi
    have hi2 : i < numberOfChunks objects := by omega
    simp only [builtChunks, List.getElem?_map, List.getElem?_range hi2, Option.map_some',
      length_chunkAt]
    unfold numberOfChunks chunkSize at hi
    unfold chunkSize
    congr 1
    omega
  · intro last hlast
    rw [List.getLast?_eq_getElem?, hlen] at hlast
    have hpos : 0 < numberOfChunks objects := by
      by_contra h
      have h0 : numberOfChunks objects = 0 := by omega
      simp [builtChunks, h0] at hlast
    have hi2 : numberOfChunks objects - 1 < numberOfChunks objects := by omega
    simp only [builtChunks, List.getElem?_map, List.getElem?_range hi2, Option.map_some',
      Option.some.injEq] at hlast
    rw [← hlast, length_chunkAt]
    unfold numberOfChunks chunkSize at *
    omega
  · unfold builtChunks
    rw [flatten_chunks_take]
    apply List.take_of_length_le
    unfold numberOfChunks chunkSize
    omega

set_option maxRecDepth 100000 in
/-- The chunk partition at a concrete input: 120 groups make chunks of 50, 50
and 20. -/
theorem chunks_partition_sample :
    (builtChunks (List.range 120)).map List.length = [50, 50, 20] ∧
    (builtChunks (List.range 120)).flatten = List.range 120 := by
  refine ⟨by decide, by decide⟩

/-! ## The streamed response -/

theorem readLoop_step {ι : Type} (P : String → Except String ι) (b : List Byte) (d : Bool)
    (evs : List ReadResult) (resp : String) (r : Rendered ι) :
    readLoop P (⟨ReadValue.bytes b, d⟩ :: evs) resp r =
      match renderLines P (split (resp ++ decodeBytes b) newline).dropLast r with
      | (r1, some message) => (LoopEnd.threw message, r1)
      | (r1, none) =>
        if d then (LoopEnd.finished, r1)
        else readLoop P evs ((split (resp ++ decodeBytes b) newline).getLastD "") r1 := rfl

theorem readLoop_no_line {ι : Type} (P : String → Except String ι) (b : List Byte)
    (evs : List ReadResult) (resp s : String) (r : Rendered ι)
    (h : split (resp ++ decodeBytes b) newline = [s]) :
    readLoop P (⟨ReadValue.bytes b, false⟩ :: evs) resp r = readLoop P evs s r := by
  rw [readLoop_step, h]; rfl

theorem readLoop_one_line {ι : Type} (P : String → Except String ι) (b : List Byte)
    (evs : List ReadResult) (resp line s : String) (r : Rendered ι)
    (h : split (resp ++ decodeBytes b) newline = [line, s]) :
    readLoop P (⟨ReadValue.bytes b, false⟩ :: evs) resp r =
      match P line with
      | Except.ok item =>
        readLoop P evs s { parsed := r.parsed ++ [line], rendered := r.rendered ++ [item] }
      | Except.error message =>
        (LoopEnd.threw message, { parsed := r.parsed ++ [line], rendered := r.rendered }) := by
  rw [readLoop_step, h]
  simp only [List.dropLast, renderLines]
  cases P line <;> rfl

theorem readLoop_end {ι : Type} (P : String → Except String ι) (r : Rendered ι) :
    readLoop P [⟨ReadValue.undefined, true⟩] "" r = (LoopEnd.finished, r) := rfl

theorem readsOf_nil : readsOf [] = [⟨ReadValue.undefined, true⟩] := rfl

theorem readsOf_cons (c : List Byte) (cs : List (List Byte)) :
    readsOf (c :: cs) = ⟨ReadValue.bytes c, false⟩ :: readsOf cs := rfl

set_option maxRecDepth 100000 in
theorem cafe_first_read :
    split ("" ++ decodeBytes (cafeBody.take 13)) newline = [cafeHead] := by decide

set_option maxRecDepth 100000 in
theorem cafe_second_read :
    split (cafeHead ++ decodeBytes (cafeBody.drop 13)) newline = [cafeLineBroken, ""] := by
  decide

set_option maxRecDepth 100000 in
theorem cafe_whole_read :
    split ("" ++ decodeBytes cafeBody) newline = [cafeLine, ""] := by decide

/-- Claim C3, evaluated on the code: a body of one JSON line whose content item
name is `Café`. Delivered in one read, the loop parses that line. Delivered in
two reads that split the two bytes of `é`, the loop parses one line that is not
the line of the body: each read is decoded on its own, so the character comes
out as two replacement characters. This holds whatever `JSON.parse` does. -/
theorem split_read_parses_broken_line {ι : Type} (JSONparse : String → Except String ι) :
    (readLoop JSONparse (readsOf [cafeBody]) "" ⟨[], []⟩).2.parsed = [cafeLine] ∧
    (readLoop JSONparse (readsOf [cafeBody.take 13, cafeBody.drop 13]) "" ⟨[], []⟩).2.parsed =
      [cafeLineBroken] ∧
    cafeBody.take 13 ++ cafeBody.drop 13 = cafeBody ∧
    cafeLineBroken ≠ cafeLine := by
  refine ⟨?_, ?_, List.take_append_drop 13 cafeBody, by decide⟩
  · rw [readsOf_cons, readsOf_nil, readLoop_one_line JSONparse _ _ _ _ _ _ cafe_whole_read]
    cases JSONparse cafeLine <;> simp [readLoop_end]
  · rw [readsOf_cons, readsOf_cons, readsOf_nil,
      readLoop_no_line JSONparse _ _ _ _ _ cafe_first_read,
      readLoop_one_line JSONparse _ _ _ _ _ _ cafe_second_read]
    cases JSONparse cafeLineBroken <;> simp [readLoop_end]

theorem splitChars_no_sep (sep : Char) (x : List Char) (h : sep ∉ x) :
    splitChars sep x = [x] := by
  induction x with
  | nil => rfl
  | cons c cs ih =>
    have hc : c ≠ sep := fun e => h (by simp [e])
    have hcs : sep ∉ cs := fun e => h (by simp [e])
    simp [splitChars, hc, ih hcs]

theorem splitChars_append_sep (sep : Char) (l x : List Char) (h : sep ∉ l) :
    splitChars sep (l ++ sep :: x) = l :: splitChars sep x := by
  induction l with
  | nil => simp [splitChars]
  | cons c cs ih =>
    have hc : c ≠ sep := fun e => h (by simp [e])
    have hcs : sep ∉ cs := fun e => h (by simp [e])
    simp [splitChars, hc, ih hcs]

theorem splitChars_prefix_of_lines (sep : Char) (ls : List (List Char))
    (hls : ∀ l ∈ ls, sep ∉ l) :
    ∀ (x y : List Char), x ++ y = joinLines sep ls →
      ∃ (j : Nat) (tail : List Char),
        splitChars sep x = ls.take j ++ [tail] ∧ tail ++ y = joinLines sep (ls.drop j) ∧
          sep ∉ tail := by
  induction ls with
  | nil =>
    intro x y h
    simp only [joinLines, List.map_nil, List.flatten_nil, List.append_eq_nil] at h
    refine ⟨0, [], ?_, ?_, by simp⟩
    · rw [h.1]; rfl
    · rw [h.2]; rfl
  | cons l ls ih =>
    intro x y h
    have hl : sep ∉ l := hls l (by simp)
    have hrest : ∀ l' ∈ ls, sep ∉ l' := fun l' hl' => hls l' (by simp [hl'])
    have hj : joinLines sep (l :: ls) = l ++ sep :: joinLines sep ls := by
      simp [joinLines]
    rw [hj] at h
    rcases List.append_eq_append_iff.mp h with ⟨a, hla, hy⟩ | ⟨c, hx, hc⟩
    · -- `x` ends inside the first line
      refine ⟨0, x, ?_, ?_, ?_⟩
      · have : sep ∉ x := fun e => hl (by rw [hla]; simp [e])
        simpa using splitChars_no_sep sep x this
      · simp only [List.drop_zero]; rw [hj]; exact h
      · exact fun e => hl (by rw [hla]; simp [e])
    · cases c with
      | nil =>
        simp only [List.append_nil] at hx
        simp only [List.nil_append] at hc
        refine ⟨0, x, ?_, ?_, ?_⟩
        · have : sep ∉ x := by rw [hx]; exact hl
          simpa using splitChars_no_sep sep x this
        · simp only [List.drop_zero]; rw [hj]; exact h
        · rw [hx]; exact hl
      | cons d c =>
        simp only [List.cons_append, List.cons.injEq] at hc
        obtain ⟨hd, hc⟩ := hc
        subst hd
        obtain ⟨j, tail, hsplit, htail, hsep⟩ := ih hrest c y hc.symm
        refine ⟨j + 1, tail, ?_, ?_, hsep⟩
        · rw [hx, splitChars_append_sep sep l c hl, hsplit]; simp
        · simpa using htail


theorem joinLines_eq_nil_of_no_sep (sep : Char) (ls : List (List Char)) (tail : List Char)
    (h : tail = joinLines sep ls) (hsep : sep ∉ tail) : ls = [] := by
  cases ls with
  | nil => rfl
  | cons l ls =>
    exfalso
    apply hsep
    rw [h]
    simp [joinLines]

theorem renderLines_all_ok {ι : Type} (P : String → Except String ι) (f : String → ι)
    (ls : List String) (hparse : ∀ l ∈ ls, P l = Except.ok (f l)) :
    ∀ r : Rendered ι, renderLines P ls r =
      ({ parsed := r.parsed ++ ls, rendered := r.rendered ++ ls.map f }, none) := by
  induction ls with
  | nil => intro r; simp [renderLines]
  | cons l ls ih =>
    intro r
    have hl : P l = Except.ok (f l) := hparse l (by simp)
    have hrest : ∀ l' ∈ ls, P l' = Except.ok (f l') := fun l' hl' => hparse l' (by simp [hl'])
    simp only [renderLines, hl]
    rw [ih hrest]
    simp

theorem split_of_lines (lines : List String) (x : String) (y : List Char)
    (hnl : ∀ l ∈ lines, newline ∉ l.data)
    (h : x.data ++ y = joinLines newline (lines.map String.data)) :
    ∃ (j : Nat) (tail : String),
      split x newline = lines.take j ++ [tail] ∧
        tail.data ++ y = joinLines newline ((lines.drop j).map String.data) ∧
        newline ∉ tail.data := by
  have hls : ∀ l ∈ lines.map String.data, newline ∉ l := by
    intro l hl
    obtain ⟨s, hs, rfl⟩ := List.mem_map.mp hl
    exact hnl s hs
  obtain ⟨j, tail, hsplit, htail, hsep⟩ :=
    splitChars_prefix_of_lines newline (lines.map String.data) hls x.data y h
  refine ⟨j, String.mk tail, ?_, ?_, hsep⟩
  · unfold split
    rw [hsplit]
    simp [← List.map_take, Function.comp_def]
  · simpa [← List.map_drop] using htail

theorem readLoop_lines {ι : Type} (P : String → Except String ι) (f : String → ι)
    (chunks : List (List Byte)) :
    ∀ (lines : List String) (resp : String) (r : Rendered ι),
      (∀ l ∈ lines, newline ∉ l.data) → (∀ l ∈ lines, P l = Except.ok (f l)) →
      resp.data ++ (chunks.map (fun c => (decodeBytes c).data)).flatten =
        joinLines newline (lines.map String.data) →
      readLoop P (readsOf chunks) resp r =
        (LoopEnd.finished,
          { parsed := r.parsed ++ lines, rendered := r.rendered ++ lines.map f }) := by
  induction chunks with
  | nil =>
    intro lines resp r hnl hparse h
    simp only [List.map_nil, List.flatten_nil] at h
    obtain ⟨j, tail, hsplit, htail, hsep⟩ := split_of_lines lines (resp ++ "") [] hnl
      (by simpa using h)
    have hdrop : (lines.drop j).map String.data = [] :=
      joinLines_eq_nil_of_no_sep newline _ tail.data (by simpa using htail) hsep
    have hj : lines.take j = lines := by
      have hd : lines.drop j = [] := List.map_eq_nil_iff.mp hdrop
      have := List.take_append_drop j lines
      rw [hd, List.append_nil] at this
      exact this
    rw [hj] at hsplit
    have hstep : readLoop P (readsOf []) resp r =
        match renderLines P (split (resp ++ "") newline).dropLast r with
        | (r1, some message) => (LoopEnd.threw message, r1)
        | (r1, none) => (LoopEnd.finished, r1) := rfl
    rw [hstep, hsplit, List.dropLast_concat, renderLines_all_ok P f lines hparse]
  | cons c cs ih =>
    intro lines resp r hnl hparse h
    simp only [List.map_cons, List.flatten_cons, ← List.append_assoc] at h
    obtain ⟨j, tail, hsplit, htail, hsep⟩ :=
      split_of_lines lines (resp ++ decodeBytes c) _ hnl (by simpa using h)
    have hnl2 : ∀ l ∈ lines.drop j, newline ∉ l.data :=
      fun l hl => hnl l (List.mem_of_mem_drop hl)
    have hparse1 : ∀ l ∈ lines.take j, P l = Except.ok (f l) :=
      fun l hl => hparse l (List.mem_of_mem_take hl)
    have hparse2 : ∀ l ∈ lines.drop j, P l = Except.ok (f l) :=
      fun l hl => hparse l (List.mem_of_mem_drop hl)
    rw [readsOf_cons, readLoop_step, hsplit, List.dropLast_concat,
      renderLines_all_ok P f _ hparse1]
    simp only [Bool.false_eq_true, if_false, List.getLastD_concat]
    rw [ih (lines.drop j) tail _ hnl2 hparse2 htail]
    simp only [List.append_assoc, ← List.map_append, List.take_append_drop]


/-- Round trip of the streamed response at the level of decoded text: when the
reads, each decoded on its own, concatenate to the text of the lines of the
body (each line free of newlines and followed by one), and every line parses,
the loop parses and renders exactly those lines, in order, and finishes. -/
theorem readLoop_roundtrip {ι : Type} (P : String → Except String ι) (f : String → ι)
    (lines : List String) (chunks : List (List Byte))
    (hnl : ∀ l ∈ lines, newline ∉ l.data) (hparse : ∀ l ∈ lines, P l = Except.ok (f l))
    (hbody : (chunks.map (fun c => (decodeBytes c).data)).flatten =
      joinLines newline (lines.map String.data)) :
    readLoop P (readsOf chunks) "" ⟨[], []⟩ =
      (LoopEnd.finished, { parsed := lines, rendered := lines.map f }) := by
  have h := readLoop_lines P f chunks lines "" ⟨[], []⟩ hnl hparse (by simpa using hbody)
  simpa using h

set_option maxRecDepth 1000000 in
theorem ascii_ne_byteOrderMark :
    ∀ b : Byte, b.val < 0x80 → Char.ofNat b.val ≠ byteOrderMark := by decide

theorem utf8Run_ascii (bytes : List Byte) (h : ∀ b ∈ bytes, b.val < 0x80) :
    utf8Run Utf8State.init bytes = bytes.map (fun b => Char.ofNat b.val) := by
  induction bytes with
  | nil => rfl
  | cons b bs ih =>
    have hb : b.val ≤ 0x7F := by have := h b (by simp); omega
    have hbs : ∀ b' ∈ bs, b'.val < 0x80 := fun b' hb' => h b' (by simp [hb'])
    have hstep : utf8Step Utf8State.init b.val = (Utf8State.init, [Char.ofNat b.val]) := by
      simp [utf8Step, Utf8State.init, utf8Lead, hb]
    simp only [utf8Run, hstep, ih hbs, List.map_cons, List.singleton_append]

theorem decodeBytes_ascii (bytes : List Byte) (h : ∀ b ∈ bytes, b.val < 0x80) :
    (decodeBytes bytes).data = bytes.map (fun b => Char.ofNat b.val) := by
  unfold decodeBytes
  rw [utf8Run_ascii bytes h]
  cases bytes with
  | nil => rfl
  | cons b bs =>
    have hb : Char.ofNat b.val ≠ byteOrderMark := ascii_ne_byteOrderMark b (h b (by simp))
    simp [hb]

/-- Round trip of the streamed response for a body of ASCII bytes: however the
body is split into reads (empty reads and splits inside a line included), the
loop parses and renders exactly the lines of the body, in order. -/
theorem readLoop_ascii_roundtrip {ι : Type} (P : String → Except String ι) (f : String → ι)
    (lines : List String) (chunks : List (List Byte))
    (hascii : ∀ c ∈ chunks, ∀ b ∈ c, b.val < 0x80)
    (hnl : ∀ l ∈ lines, newline ∉ l.data) (hparse : ∀ l ∈ lines, P l = Except.ok (f l))
    (hbody : (decodeBytes chunks.flatten).data = joinLines newline (lines.map String.data)) :
    readLoop P (readsOf chunks) "" ⟨[], []⟩ =
      (LoopEnd.finished, { parsed := lines, rendered := lines.map f }) := by
  apply readLoop_roundtrip P f lines chunks hnl hparse
  rw [← hbody, decodeBytes_ascii]
  · rw [List.map_flatten]
    congr 1
    apply List.map_congr_left
    intro c hc
    exact decodeBytes_ascii c (hascii c hc)
  · intro b hb
    obtain ⟨c, hc, hbc⟩ := List.mem_flatten.mp hb
    exact hascii c hc b hbc

set_option maxRecDepth 100000 in
/-- The ASCII round trip at a concrete input: two lines delivered in four
reads, one of them empty, with both lines split across reads. -/
theorem readLoop_ascii_roundtrip_sample :
    readLoop (fun s => (Except.ok s : Except String String))
        (readsOf [utf8Bytes "\x7b\"a\"", [], utf8Bytes ":1\x7d\n\x7b\"b\":2", utf8Bytes "\x7d\n"])
        "" ⟨[], []⟩ =
      (LoopEnd.finished,
        { parsed := ["\x7b\"a\":1\x7d", "\x7b\"b\":2\x7d"],
          rendered := ["\x7b\"a\":1\x7d", "\x7b\"b\":2\x7d"] }) :=
  readLoop_ascii_roundtrip (fun s => Except.ok s) (fun s => s)
    ["\x7b\"a\":1\x7d", "\x7b\"b\":2\x7d"]
    [utf8Bytes "\x7b\"a\"", [], utf8Bytes ":1\x7d\n\x7b\"b\":2", utf8Bytes "\x7d\n"]
    (by decide) (by decide) (by intro l _; rfl) (by decide)

set_option maxRecDepth 100000 in
/-- Claim C8, evaluated on the code: with 51 link groups (two chunks) and a
service that answers the request for the first chunk with status 500 and an
empty body, `testLinks` displays the notification of the unexpected status and
then posts the second chunk as well. -/
theorem testLinks_continues_after_error {ι : Type} (JSONparse : String → Except String ι) :
    (testLinks failingFirstService JSONparse fiftyOneGroups).1 = RunEnd.returned ∧
    (testLinks failingFirstService JSONparse fiftyOneGroups).2.requests =
      [fiftyOneGroups.take 50, fiftyOneGroups.drop 50] ∧
    (testLinks failingFirstService JSONparse fiftyOneGroups).2.notifications =
      [⟨"Unexpected error occured communicating with server. Status code: 500",
        "is-danger"⟩] := by
  refine ⟨?_, ?_, ?_⟩
  · rfl
  · rfl
  · rfl

/-- Every chunk is posted, in order, when each response, whatever its status,
carries a body that the read loop finishes on. -/
theorem testLinksLoop_posts_all {γ ι : Type} (service : Nat → List γ → PingResult)
    (P : String → Except String ι) (objects : List γ)
    (hclean : ∀ (index : Nat) (chunk : List γ) (r : Rendered ι), ∃ status reads,
      service index chunk = PingResult.response status reads ∧
        (readLoop P reads "" r).1 = LoopEnd.finished) :
    ∀ (indices : List Nat) (run : PingRun γ ι),
      (testLinksLoop service P objects indices run).1 = RunEnd.returned ∧
        (testLinksLoop service P objects indices run).2.requests =
          run.requests ++ indices.map (chunkAt objects) := by
  intro indices
  induction indices with
  | nil => intro run; simp [testLinksLoop]
  | cons index rest ih =>
    intro run
    obtain ⟨status, reads, hservice, hfin⟩ := hclean index (chunkAt objects index) run.output
    simp only [testLinksLoop, hservice]
    cases hloop : readLoop P reads "" run.output with
    | mk ending out =>
      rw [hloop] at hfin
      simp only at hfin
      subst hfin
      simp only
      obtain ⟨h1, h2⟩ := ih
        { requests := run.requests ++ [chunkAt objects index]
          notifications :=
            if statusOk status = true then run.notifications
            else run.notifications ++
              [⟨"Unexpected error occured communicating with server. Status code: " ++
                  toString status, "is-danger"⟩]
          output := out }
      refine ⟨h1, ?_⟩
      rw [h2]
      simp

/-- The chunks that a run of `testLinks` posts are the chunks it builds, all of
them and in order, when each response, whatever its status, carries a body
that the read loop finishes on. -/
theorem testLinks_posts_builtChunks {γ ι : Type} (service : Nat → List γ → PingResult)
    (P : String → Except String ι) (objects : List γ)
    (hclean : ∀ (index : Nat) (chunk : List γ) (r : Rendered ι), ∃ status reads,
      service index chunk = PingResult.response status reads ∧
        (readLoop P reads "" r).1 = LoopEnd.finished) :
    (testLinks service P objects).1 = RunEnd.returned ∧
      (testLinks service P objects).2.requests = builtChunks objects := by
  have h := testLinksLoop_posts_all service P objects hclean
    (List.range (numberOfChunks objects))
    { requests := [], notifications := [], output := { parsed := [], rendered := [] } }
  exact ⟨h.1, by simpa [testLinks, builtChunks] using h.2⟩

/-! ## The paginators -/

theorem callAPI_ok {α : Type} (fetch : String → FetchResult α) (endpoint : String) (status : Nat)
    (page : α) (hs : statusOk status = true)
    (hf : fetch endpoint = FetchResult.response status (Except.ok page)) :
    callAPI fetch endpoint = Except.ok page := by
  simp [callAPI, hf, hs]

theorem callAPI_not_ok {α : Type} (fetch : String → FetchResult α) (endpoint : String)
    (status : Nat) (json : Except String α) (hs : statusOk status = false)
    (hf : fetch endpoint = FetchResult.response status json) :
    callAPI fetch endpoint = Except.error ("API request failed: " ++ toString status) := by
  simp [callAPI, hf, hs]

theorem getTypesLoop_repeats (fetch : String → FetchResult TypesResponse) (endpointURL : String)
    (page : TypesResponse)
    (hpage : callAPI fetch (endpointURL ++ "/types?limit=2000&skip=0") = Except.ok page)
    (hnext : page.pagination.next_page ≠ "") :
    ∀ (fuel : Nat) (retrievedTypes : List (List ContentType)) (endpoint : Option String)
      (log : List String),
      (getTypesLoop fetch endpointURL fuel retrievedTypes endpoint log).outcome =
          Outcome.outOfFuel ∧
        (getTypesLoop fetch endpointURL fuel retrievedTypes endpoint log).requests =
          log ++ List.replicate fuel (endpointURL ++ "/types?limit=2000&skip=0") := by
  intro fuel
  induction fuel with
  | zero => intro acc ep log; simp [getTypesLoop]
  | succ fuel ih =>
    intro acc ep log
    simp only [getTypesLoop, hpage, hnext, if_false]
    obtain ⟨h1, h2⟩ := ih (acc ++ [page.types]) (some page.pagination.next_page)
      (log ++ [endpointURL ++ "/types?limit=2000&skip=0"])
    refine ⟨h1, ?_⟩
    rw [h2, List.replicate_succ]
    simp

/-- Claim C4, evaluated on the code: for a catalog served in two pages, where
the first page names the URL of the second as its `next_page`, `getTypes`
requests the URL of the first page in every iteration, never requests the
second page, and has not returned after any number of iterations. -/
theorem getTypes_two_pages_never_returns (fuel : Nat) :
    (getTypes twoTypePages sampleBase fuel).outcome = Outcome.outOfFuel ∧
    (getTypes twoTypePages sampleBase fuel).requests = List.replicate fuel typesFirst ∧
    typesSecond ∉ (getTypes twoTypePages sampleBase fuel).requests := by
  have hpage : callAPI twoTypePages (sampleBase ++ "/types?limit=2000&skip=0") =
      Except.ok { types := [sampleType "article" "rich_text"], pagination := ⟨typesSecond⟩ } := by
    rfl
  have h := getTypesLoop_repeats twoTypePages sampleBase _ hpage (by decide) fuel [] none []
  unfold getTypes
  refine ⟨h.1, by simpa [typesFirst] using h.2, ?_⟩
  rw [h.2]
  simp only [List.nil_append]
  intro hmem
  have := List.eq_of_mem_replicate hmem
  revert this
  decide

/-- A catalog of one page is retrieved by `getTypes` with one request. -/
theorem getTypes_one_page :
    (getTypes (plainWorld.fetchTypes none) sampleBase 1).outcome =
      Outcome.returned [sampleType "author" "text", sampleType "tag" "number"] ∧
    (getTypes (plainWorld.fetchTypes none) sampleBase 1).requests = [typesFirst] := by
  refine ⟨by decide, by decide⟩

theorem getItemsLoop_chain (fetch : String → FetchResult ItemsResponse)
    (pages : List ItemsResponse) :
    ∀ (endpoint : String) (fuel : Nat) (retrievedItems : List (List ContentItem))
      (log : List String),
      ItemsChain fetch endpoint pages → pages.length ≤ fuel →
      getItemsLoop fetch fuel endpoint retrievedItems log =
        { outcome := Outcome.returned (retrievedItems ++ pages.map (fun p => p.items)).flatten
          requests :=
            log ++ endpoint :: pages.dropLast.map (fun p => p.pagination.next_page) } := by
  induction pages with
  | nil => intro endpoint fuel acc log h; exact absurd h (by simp [ItemsChain])
  | cons page rest ih =>
    intro endpoint fuel acc log h hfuel
    cases fuel with
    | zero => simp at hfuel
    | succ fuel =>
      cases rest with
      | nil =>
        obtain ⟨⟨status, hs, hf⟩, hlast⟩ := h
        simp [getItemsLoop, callAPI_ok fetch endpoint status page hs hf, hlast]
      | cons next rest =>
        obtain ⟨⟨status, hs, hf⟩, hnext, hrest⟩ := h
        have hfuel2 : (next :: rest).length ≤ fuel := by simpa using hfuel
        simp only [getItemsLoop, callAPI_ok fetch endpoint status page hs hf, hnext, if_false]
        rw [ih _ _ _ _ hrest hfuel2]
        simp [List.dropLast]

/-- Claim C5: for a chain of `n ≥ 1` item pages, `getItems` (given at least `n`
iterations of fuel) returns the concatenation of the items of the pages in page
order and issues exactly `n` requests, the first to the endpoint built by
`setCallParameters` and each later one to the `next_page` of the page before. -/
theorem getItems_chain (fetch : String → FetchResult ItemsResponse)
    (endpointURL types language : String) (pages : List ItemsResponse) (fuel : Nat)
    (hchain : ItemsChain fetch (setCallParameters endpointURL types language) pages)
    (hfuel : pages.length ≤ fuel) :
    (getItems fetch endpointURL types language fuel).outcome =
      Outcome.returned (pages.map (fun p => p.items)).flatten ∧
    (getItems fetch endpointURL types language fuel).requests =
      setCallParameters endpointURL types language ::
        pages.dropLast.map (fun p => p.pagination.next_page) ∧
    (getItems fetch endpointURL types language fuel).requests.length = pages.length := by
  unfold getItems
  rw [getItemsLoop_chain fetch pages _ fuel [] [] hchain hfuel]
  refine ⟨by simp, by simp, ?_⟩
  cases pages with
  | nil => exact absurd hchain (by simp [ItemsChain])
  | cons p ps => simp

/-- Claim C5 at a concrete input: a listing of three pages. -/
theorem getItems_chain_witness :
    (getItems threeItemPages sampleBase "article" "" 3).outcome =
      Outcome.returned
        [sampleItem "one" "", sampleItem "two" "", sampleItem "three" "",
          sampleItem "four" ""] ∧
    (getItems threeItemPages sampleBase "article" "" 3).requests =
      [itemsFirst, "https://next/2", "https://next/3"] ∧
    (getItems threeItemPages sampleBase "article" "" 3).requests.length = 3 :=
  getItems_chain threeItemPages sampleBase "article" "" [itemPage1, itemPage2, itemPage3] 3
    ⟨⟨200, rfl, rfl⟩, by decide, ⟨200, rfl, rfl⟩, by decide, ⟨200, rfl, rfl⟩, rfl⟩ (by decide)

theorem getItemsLoop_failure (fetch : String → FetchResult ItemsResponse)
    (pages : List ItemsResponse) (status : Nat) :
    ∀ (endpoint : String) (fuel : Nat) (retrievedItems : List (List ContentItem))
      (log : List String),
      ItemsFailure fetch endpoint pages status → pages.length < fuel →
      getItemsLoop fetch fuel endpoint retrievedItems log =
        { outcome := Outcome.threw
            ("Error occured retrieving your content items: API request failed: " ++
              toString status)
          requests := log ++ endpoint :: pages.map (fun p => p.pagination.next_page) } := by
  induction pages with
  | nil =>
    intro endpoint fuel acc log h hfuel
    obtain ⟨hs, json, hf⟩ := h
    cases fuel with
    | zero => simp at hfuel
    | succ fuel =>
      simp only [getItemsLoop, callAPI_not_ok fetch endpoint status json hs hf,
        List.map_nil, ← String.append_assoc]
      rfl
  | cons page rest ih =>
    intro endpoint fuel acc log h hfuel
    obtain ⟨⟨s, hs, hf⟩, hnext, hrest⟩ := h
    cases fuel with
    | zero => simp at hfuel
    | succ fuel =>
      have hfuel2 : rest.length < fuel := by simpa using hfuel
      simp only [getItemsLoop, callAPI_ok fetch endpoint s page hs hf, hnext, if_false]
      rw [ih _ _ _ _ hrest hfuel2]
      simp

/-- Claim C9 as amended: when a page request of `getItems` gets a non-2xx
response, after any number of pages fetched before it, the operation throws an
error whose message is `Error occured retrieving your content items: API
request failed: ` followed by the status code, whatever the endpoint that
failed; no items are returned, and the failed request is the last one issued. -/
theorem getItems_failure (fetch : String → FetchResult ItemsResponse)
    (endpointURL types language : String) (pages : List ItemsResponse) (status fuel : Nat)
    (hfail : ItemsFailure fetch (setCallParameters endpointURL types language) pages status)
    (hfuel : pages.length < fuel) :
    (getItems fetch endpointURL types language fuel).outcome =
      Outcome.threw
        ("Error occured retrieving your content items: API request failed: " ++
          toString status) ∧
    (getItems fetch endpointURL types language fuel).requests =
      setCallParameters endpointURL types language ::
        pages.map (fun p => p.pagination.next_page) := by
  unfold getItems
  rw [getItemsLoop_failure fetch pages status _ fuel [] [] hfail hfuel]
  simp

/-- Claim C9 as amended, at a concrete input: the second page is answered with
status 404. -/
theorem getItems_failure_witness :
    (getItems secondPageMissing sampleBase "article" "" 2).outcome =
      Outcome.threw "Error occured retrieving your content items: API request failed: 404" ∧
    (getItems secondPageMissing sampleBase "article" "" 2).requests =
      [itemsFirst, "https://next/2"] :=
  getItems_failure secondPageMissing sampleBase "article" "" [itemPage1] 404 2
    ⟨⟨200, rfl, rfl⟩, by decide, rfl, _, rfl⟩ (by decide)

set_option maxRecDepth 100000 in
/-- Claim C9 as stated fails: when the request to `https://next/2` is answered
with status 404, the error that `getItems` throws has the status code in its
message and does not have the endpoint in it. -/
theorem getItems_error_lacks_endpoint :
    (getItems secondPageMissing sampleBase "article" "" 2).outcome =
      Outcome.threw "Error occured retrieving your content items: API request failed: 404" ∧
    (getItems secondPageMissing sampleBase "article" "" 2).requests.getLast? =
      some "https://next/2" ∧
    ¬ ("https://next/2".data <:+:
        "Error occured retrieving your content items: API request failed: 404".data) := by
  refine ⟨by decide, by decide, by decide⟩

/-! ## Type filtering and the short circuit of `controlScript` -/

theorem any_iff_hasRichText (type : ContentType) :
    (type.elements.map Prod.snd).any (fun element => element.type == "rich_text") = true ↔
      HasRichText type := by
  simp only [HasRichText, List.any_eq_true, List.mem_map, beq_iff_eq]
  constructor
  · rintro ⟨element, ⟨entry, hmem, rfl⟩, htype⟩
    exact ⟨entry, hmem, htype⟩
  · rintro ⟨entry, hmem, htype⟩
    exact ⟨entry.2, ⟨entry, hmem, rfl⟩, htype⟩

theorem findRichTextTypes_eq (types : List ContentType) :
    findRichTextTypes types =
      String.intercalate ","
        ((types.filter (fun type => decide (HasRichText type))).map
          (fun type => type.system.codename)) := by
  unfold findRichTextTypes
  show String.intercalate "," (List.map _ (List.filter _ types)) = _
  congr 2
  apply List.filter_congr
  intro type _
  rw [Bool.eq_iff_iff]
  simp only [decide_eq_true_eq]
  exact any_iff_hasRichText type

/-- Claim C10: `findRichTextTypes` returns the codenames, joined by commas and
in catalog order, of exactly the types that have an element of type
`rich_text`; when no type qualifies the result is the empty string; and when
the result for the retrieved catalog is the empty string, `controlScript`
displays `No Content Types with Rich Text Elements found.`, aborts, and issues
no request for items and no validation request. -/
theorem findRichTextTypes_controlScript (types : List ContentType) :
    findRichTextTypes types =
      String.intercalate ","
        ((types.filter (fun type => decide (HasRichText type))).map
          (fun type => type.system.codename)) ∧
    ((∀ type ∈ types, ¬ HasRichText type) → findRichTextTypes types = "") ∧
    (∀ (ι : Type) (world : World ι) (inputs : Inputs) (fuel : Nat) (settings : Settings)
        (langLog : List String),
      processUserInputs world inputs = (Except.ok settings, langLog) →
      (getTypes (world.fetchTypes settings.headers) settings.endpointURL fuel).outcome =
        Outcome.returned types →
      findRichTextTypes types = "" →
      (controlScript world inputs fuel).notifications =
          [⟨"No Content Types with Rich Text Elements found.", "is-warning"⟩,
            ⟨"Process Aborted", "is-danger"⟩] ∧
        (controlScript world inputs fuel).itemRequests = [] ∧
        (controlScript world inputs fuel).ping.isNone = true ∧
        (controlScript world inputs fuel).ending = ControlEnd.returned) := by
  refine ⟨findRichTextTypes_eq types, ?_, ?_⟩
  · intro hnone
    rw [findRichTextTypes_eq]
    have : types.filter (fun type => decide (HasRichText type)) = [] := by
      rw [List.filter_eq_nil_iff]
      intro t ht
      simpa using hnone t ht
    rw [this]
    rfl
  · intro ι world inputs fuel settings langLog hin htypes hempty
    simp only [controlScript, hin, checkTypes, htypes, hempty, if_true]
    simp

/-- Claim C10 at a concrete input: a catalog of two types without rich text. -/
theorem findRichTextTypes_controlScript_witness :
    findRichTextTypes [sampleType "author" "text", sampleType "tag" "number"] = "" ∧
    (controlScript plainWorld plainInputs 1).notifications =
      [⟨"No Content Types with Rich Text Elements found.", "is-warning"⟩,
        ⟨"Process Aborted", "is-danger"⟩] ∧
    (controlScript plainWorld plainInputs 1).itemRequests = [] ∧
    (controlScript plainWorld plainInputs 1).ping.isNone = true ∧
    (controlScript plainWorld plainInputs 1).ending = ControlEnd.returned :=
  ⟨(findRichTextTypes_controlScript [sampleType "author" "text", sampleType "tag" "number"]).2.1
      (by decide),
    (findRichTextTypes_controlScript [sampleType "author" "text", sampleType "tag" "number"]).2.2
      Unit plainWorld plainInputs 1 _ _ rfl rfl (by decide)⟩

/-- The comma-joined codenames at a concrete catalog, in catalog order. -/
theorem findRichTextTypes_sample :
    findRichTextTypes
      [sampleType "article" "rich_text", sampleType "author" "text",
        sampleType "page" "rich_text"] = "article,page" := by decide

/-! ## The probe -/

/-- Claim C7 as amended: when a response is received, `makeRequest` returns its
status code in every case; for a status from 200 to 299 it returns the elapsed
milliseconds, `redirected` true exactly when the final URL differs from the
requested URL, and `errored` false; for every other status (404 or 500, say)
it returns the text `Not Calculated` as response time, `redirected` false and
`errored` true. -/
theorem makeRequest_received (url responseUrl : String) (startTime endTime : Int)
    (status : Nat) :
    makeRequest url startTime endTime (Probe.received status responseUrl) =
      (if 200 ≤ status ∧ status < 300 then
        { status := status, responseTime := ResponseTime.ms (endTime - startTime),
          redirected := decide (responseUrl ≠ url), errored := false }
      else
        { status := status, responseTime := ResponseTime.text "Not Calculated",
          redirected := false, errored := true }) ∧
    (200 ≤ status ∧ status < 300 →
      ((makeRequest url startTime endTime (Probe.received status responseUrl)).redirected =
          true ↔ responseUrl ≠ url)) := by
  by_cases h : 200 ≤ status ∧ status < 300
  · simp [makeRequest, axiosGet, h]
  · simp [makeRequest, axiosGet, h]

/-- Claim C7 as amended, at concrete inputs: a redirected 200 and a 500. -/
theorem makeRequest_received_witness :
    makeRequest "https://e.com/a" 1000 1012 (Probe.received 200 "https://e.com/b") =
      { status := 200, responseTime := ResponseTime.ms 12, redirected := true,
        errored := false } ∧
    makeRequest "https://e.com/a" 1000 1012 (Probe.received 500 "https://e.com/a") =
      { status := 500, responseTime := ResponseTime.text "Not Calculated",
        redirected := false, errored := true } :=
  ⟨(makeRequest_received "https://e.com/a" "https://e.com/b" 1000 1012 200).1,
    (makeRequest_received "https://e.com/a" "https://e.com/a" 1000 1012 500).1⟩

/-- Claim C7 as stated fails: for a received response with status 404 the
result of `makeRequest` has `errored` true and no elapsed time. -/
theorem makeRequest_404_errored :
    makeRequest "https://e.com/missing" 1000 1012
        (Probe.received 404 "https://e.com/missing") =
      { status := 404, responseTime := ResponseTime.text "Not Calculated",
        redirected := false, errored := true } ∧
    ¬ ((makeRequest "https://e.com/missing" 1000 1012
          (Probe.received 404 "https://e.com/missing")).responseTime = ResponseTime.ms 12 ∧
       (makeRequest "https://e.com/missing" 1000 1012
          (Probe.received 404 "https://e.com/missing")).errored = false) := by
  refine ⟨by decide, by decide⟩

/-! ## The validation endpoint -/

theorem digitChar_ne_newline : ∀ n, n < 16 → Nat.digitChar n ≠ newline := by
  decide

theorem newline_not_mem_toDigitsCore (fuel : Nat) :
    ∀ (n : Nat) (ds : List Char), newline ∉ ds → newline ∉ Nat.toDigitsCore 10 fuel n ds := by
  induction fuel with
  | zero => intro n ds h; simpa [Nat.toDigitsCore] using h
  | succ fuel ih =>
    intro n ds h
    have hcons : newline ∉ Nat.digitChar (n % 10) :: ds := by
      intro hmem
      rcases List.mem_cons.mp hmem with h1 | h1
      · exact digitChar_ne_newline _ (by omega) h1.symm
      · exact h h1
    simp only [Nat.toDigitsCore]
    split
    · exact hcons
    · exact ih _ _ hcons

theorem newline_not_mem_natToString (n : Nat) : newline ∉ (toString n).data := by
  show newline ∉ (Nat.toDigits 10 n).asString.data
  exact newline_not_mem_toDigitsCore _ _ _ (by simp)

theorem newline_not_mem_intToString (n : Int) : newline ∉ (toString n).data := by
  cases n with
  | ofNat m => exact newline_not_mem_natToString m
  | negSucc m =>
    show newline ∉ ("-" ++ toString (Nat.succ m)).data
    rw [String.data_append]
    intro h
    rcases List.mem_append.mp h with h1 | h1
    · revert h1; decide
    · exact newline_not_mem_natToString _ h1


theorem newline_not_mem_quoteChar (c : Char) : newline ∉ quoteChar c := by
  unfold quoteChar
  split_ifs with h1 h2 h3 h4 h5 h6 h7 h8
  · decide
  · decide
  · decide
  · decide
  · decide
  · decide
  · decide
  · intro hmem
    simp only [List.mem_append, List.mem_cons, List.mem_singleton, List.not_mem_nil,
      or_false] at hmem
    rcases hmem with hmem | hmem | hmem
    · revert hmem; decide
    · exact digitChar_ne_newline _ (by omega) hmem.symm
    · exact digitChar_ne_newline _ (by omega) hmem.symm
  · intro hmem
    exact h3 (List.mem_singleton.mp hmem).symm

theorem newline_not_mem_quoteJSONString (s : String) : newline ∉ quoteJSONString s := by
  unfold quoteJSONString
  intro hmem
  rcases List.mem_cons.mp hmem with h | h
  · revert h; decide
  · rcases List.mem_append.mp h with h | h
    · obtain ⟨c, _, hc⟩ := List.mem_flatMap.mp h
      exact newline_not_mem_quoteChar c hc
    · revert h; decide

theorem newline_not_mem_stringifyValue (value : JsonValue) :
    newline ∉ stringifyValue value := by
  cases value with
  | null => decide
  | bool b => cases b <;> decide
  | number n => exact newline_not_mem_intToString n
  | string s => exact newline_not_mem_quoteJSONString s

theorem newline_not_mem_commaJoin (parts : List (List Char))
    (h : ∀ p ∈ parts, newline ∉ p) : newline ∉ commaJoin parts := by
  induction parts with
  | nil => simp [commaJoin]
  | cons x rest ih =>
    cases rest with
    | nil => simpa [commaJoin] using h x (by simp)
    | cons y rest =>
      have hx : newline ∉ x := h x (by simp)
      have hrest : newline ∉ commaJoin (y :: rest) :=
        ih (fun p hp => h p (List.mem_cons_of_mem _ hp))
      intro hmem
      simp only [commaJoin, List.mem_append, List.mem_cons] at hmem
      rcases hmem with hmem | hmem | hmem
      · exact hx hmem
      · revert hmem; decide
      · exact hrest hmem

theorem newline_not_mem_property (key : String) (value : List Char)
    (h : newline ∉ value) : newline ∉ property key value := by
  intro hmem
  simp only [property, List.mem_append, List.mem_cons] at hmem
  rcases hmem with hmem | hmem | hmem
  · exact newline_not_mem_quoteJSONString key hmem
  · revert hmem; decide
  · exact h hmem

theorem newline_not_mem_optionalProperty (key : String) (value : Option JsonValue) :
    ∀ p ∈ optionalProperty key value, newline ∉ p := by
  intro p hp
  cases value with
  | none => simp [optionalProperty] at hp
  | some v =>
    simp only [optionalProperty, List.mem_singleton] at hp
    rw [hp]
    exact newline_not_mem_property key _ (newline_not_mem_stringifyValue v)

theorem newline_not_mem_braces (inner : List Char) (opening closing : Char)
    (ho : newline ≠ opening) (hc : newline ≠ closing) (h : newline ∉ inner) :
    newline ∉ opening :: inner ++ [closing] := by
  intro hmem
  rcases List.mem_cons.mp hmem with h1 | h1
  · exact ho h1
  · rcases List.mem_append.mp h1 with h2 | h2
    · exact h h2
    · exact hc (List.mem_singleton.mp h2)

theorem newline_not_mem_stringifyLink (link : PingLink) : newline ∉ stringifyLink link := by
  unfold stringifyLink
  apply newline_not_mem_braces _ _ _ (by decide) (by decide)
  apply newline_not_mem_commaJoin
  intro p hp
  rcases List.mem_append.mp hp with hp | hp
  · rcases List.mem_append.mp hp with hp | hp
    · rcases List.mem_append.mp hp with hp | hp
      · rcases List.mem_append.mp hp with hp | hp
        · rw [List.mem_singleton.mp hp]
          exact newline_not_mem_property _ _ (newline_not_mem_quoteJSONString _)
        · exact newline_not_mem_optionalProperty _ _ p hp
      · exact newline_not_mem_optionalProperty _ _ p hp
    · exact newline_not_mem_optionalProperty _ _ p hp
  · exact newline_not_mem_optionalProperty _ _ p hp

theorem newline_not_mem_JSONstringify (item : PingGroup) :
    newline ∉ (JSONstringify item).data := by
  unfold JSONstringify
  apply newline_not_mem_braces _ _ _ (by decide) (by decide)
  apply newline_not_mem_commaJoin
  intro p hp
  rcases List.mem_cons.mp hp with hp | hp
  · rw [hp]; exact newline_not_mem_property _ _ (newline_not_mem_quoteJSONString _)
  · rcases List.mem_cons.mp hp with hp | hp
    · rw [hp]
      apply newline_not_mem_property
      apply newline_not_mem_braces _ _ _ (by decide) (by decide)
      apply newline_not_mem_commaJoin
      intro q hq
      obtain ⟨link, _, rfl⟩ := List.mem_map.mp hq
      exact newline_not_mem_stringifyLink link
    · rw [List.mem_singleton.mp hp]
      exact newline_not_mem_property _ _ (newline_not_mem_quoteJSONString _)


theorem probeLinks_eq (network : Nat → String → Exchange) (links : List PingLink) :
    ∀ count, probeLinks network count links =
      (links.enumFrom count).map (fun p => setResult p.2 (probeOf network p.1 p.2.URL)) := by
  induction links with
  | nil => intro count; rfl
  | cons link rest ih =>
    intro count
    simp only [probeLinks, List.enumFrom_cons, List.map_cons, ih (count + 1)]
    rfl

theorem pingLoop_eq (network : Nat → String → Exchange) (items : List PingGroup) :
    ∀ run : HandlerRun,
      (pingLoop network items run).items =
          run.items ++ probedGroups network run.probed.length items ∧
        (pingLoop network items run).probed =
          run.probed ++ items.flatMap (fun item => item.URLs.map (fun url => url.URL)) ∧
        (pingLoop network items run).response =
          { run.response with
            body := run.response.body ++
              (probedGroups network run.probed.length items).map
                (fun item => JSONstringify item ++ "\n") } := by
  induction items with
  | nil => intro run; simp [pingLoop, probedGroups]
  | cons item rest ih =>
    intro run
    obtain ⟨h1, h2, h3⟩ := ih
      { items := run.items ++
          [{ item with URLs := probeLinks network run.probed.length item.URLs }]
        probed := run.probed ++ item.URLs.map (fun url => url.URL)
        response := { run.response with
          body := run.response.body ++
            [JSONstringify { item with URLs := probeLinks network run.probed.length item.URLs }
              ++ "\n"] } }
    simp only [pingLoop]
    rw [h1, h2, h3]
    simp [probedGroups, probeLinks_eq]


theorem length_probedGroups (network : Nat → String → Exchange) (items : List PingGroup) :
    ∀ count, (probedGroups network count items).length = items.length := by
  induction items with
  | nil => intro count; rfl
  | cons item rest ih => intro count; simp [probedGroups, ih]

theorem probedGroups_frame (network : Nat → String → Exchange) (items : List PingGroup) :
    ∀ count,
      List.Forall₂
        (fun submitted written =>
          written.Name = submitted.Name ∧ written.systemID = submitted.systemID ∧
            written.URLs.map (fun url => url.URL) = submitted.URLs.map (fun url => url.URL))
        items (probedGroups network count items) := by
  induction items with
  | nil => intro count; exact List.Forall₂.nil
  | cons item rest ih =>
    intro count
    refine List.Forall₂.cons ⟨rfl, rfl, ?_⟩ (ih _)
    simp only [List.map_map]
    have hrw : ((fun url : PingLink => url.URL) ∘
        fun p : Nat × PingLink => setResult p.2 (probeOf network p.1 p.2.URL)) =
        (fun url : PingLink => url.URL) ∘ Prod.snd := by
      funext p; rfl
    rw [hrw, ← List.map_map, List.enumFrom_map_snd]

theorem probedGroups_links (network : Nat → String → Exchange) (items : List PingGroup) :
    ∀ count,
      (probedGroups network count items).flatMap (fun item => item.URLs) =
        ((items.flatMap (fun item => item.URLs)).enumFrom count).map
          (fun p => setResult p.2 (probeOf network p.1 p.2.URL)) := by
  induction items with
  | nil => intro count; rfl
  | cons item rest ih =>
    intro count
    simp only [probedGroups, List.flatMap_cons, ih, List.enumFrom_append, List.map_append]

theorem forall₂_resultOf (network : Nat → String → Exchange) (links : List (Nat × PingLink)) :
    List.Forall₂
      (fun (p : Nat × PingLink) written => ResultOf (probeOf network p.1 p.2.URL) p.2 written)
      links (links.map (fun p => setResult p.2 (probeOf network p.1 p.2.URL))) := by
  induction links with
  | nil => exact List.Forall₂.nil
  | cons p rest ih => exact List.Forall₂.cons ⟨rfl, rfl, rfl, rfl, rfl⟩ ih

/-- Claim C11: for every request body and every outcome of the probes, the
handler answers with status 200 and writes one chunk per submitted group, in
submission order, each the one-line JSON text of the group followed by a
newline; a written group has the Name, the systemID and the URLs, in number
and order, of the submitted one; and every link, numbered in submission order,
has its URL as submitted and its Response, ResponseTime, Redirected and Error
set from the probe of that number, which is made for its own URL. -/
theorem ping_writes_groups (network : Nat → String → Exchange) (items : List PingGroup) :
    (ping network items).response.body =
      (ping network items).items.map (fun item => JSONstringify item ++ "\n") ∧
    (ping network items).response.body.length = items.length ∧
    (∀ item : PingGroup, newline ∉ (JSONstringify item).data) ∧
    List.Forall₂
      (fun submitted written =>
        written.Name = submitted.Name ∧ written.systemID = submitted.systemID ∧
          written.URLs.map (fun url => url.URL) = submitted.URLs.map (fun url => url.URL))
      items (ping network items).items ∧
    List.Forall₂
      (fun (p : Nat × PingLink) written => ResultOf (probeOf network p.1 p.2.URL) p.2 written)
      (items.flatMap (fun item => item.URLs)).enum
      ((ping network items).items.flatMap (fun item => item.URLs)) ∧
    (ping network items).probed =
      items.flatMap (fun item => item.URLs.map (fun url => url.URL)) ∧
    (ping network items).response.statusCode = 200 ∧
    (ping network items).response.ended = true := by
  obtain ⟨h1, h2, h3⟩ := pingLoop_eq network items
    { items := []
      probed := []
      response :=
        { statusCode := 200
          headers := [("Content-Type", "application/json"), ("Transfer-Encoding", "chunked"),
            ("Trailer", "Content-MD5")]
          body := []
          trailers := []
          ended := false } }
  simp only [List.nil_append, List.length_nil] at h1 h2 h3
  have hitems : (ping network items).items = probedGroups network 0 items := h1
  have hbody : (ping network items).response.body =
      (probedGroups network 0 items).map (fun item => JSONstringify item ++ "\n") := by
    show (pingLoop network items _).response.body = _
    rw [h3]
  refine ⟨?_, ?_, newline_not_mem_JSONstringify, ?_, ?_, h2, ?_, rfl⟩
  · rw [hbody, hitems]
  · rw [hbody, List.length_map, length_probedGroups]
  · rw [hitems]; exact probedGroups_frame network items 0
  · rw [hitems, probedGroups_links]
    exact forall₂_resultOf network _
  · show (pingLoop network items _).response.statusCode = 200
    rw [h3]


set_option maxRecDepth 100000 in
/-- Claim C11 at a concrete input: two groups with three links, probed on a
network where the first probe is redirected, the second gets status 404 and
the third gets no response. -/
theorem ping_writes_groups_witness :
    (ping mixedNetwork twoPingGroups).response.body =
      (ping mixedNetwork twoPingGroups).items.map (fun item => JSONstringify item ++ "\n") ∧
    (ping mixedNetwork twoPingGroups).response.body =
      ["\x7b\"Name\":\"One\",\"URLs\":[\x7b\"URL\":\"https://a.com\",\"Response\":200,\"ResponseTime\":30,\"Redirected\":true,\"Error\":false\x7d,\x7b\"URL\":\"https://b.org/x\",\"Response\":404,\"ResponseTime\":\"Not Calculated\",\"Redirected\":false,\"Error\":true\x7d],\"systemID\":\"id-1\"\x7d\n",
        "\x7b\"Name\":\"Two\",\"URLs\":[\x7b\"URL\":\"https://c.net\",\"Response\":500,\"ResponseTime\":\"None - Unexpected Internal Error\",\"Redirected\":false,\"Error\":true\x7d],\"systemID\":\"id-2\"\x7d\n"] ∧
    (ping mixedNetwork twoPingGroups).probed =
      ["https://a.com", "https://b.org/x", "https://c.net"] :=
  ⟨(ping_writes_groups mixedNetwork twoPingGroups).1, by decide, by decide⟩

set_option maxRecDepth 100000 in
/-- The line that the handler writes for the group of the content item `Café`
is the line of the body that the read loop of the client is run on above. -/
theorem ping_cafe_line :
    (ping plainNetwork [cafeGroup]).response.body = [cafeLine ++ "\n"] := by decide

end RichTextLinkChecker
